import Mathlib

/-!
Verification of the IPC/transport core of the repository: the wire
framing reassembly, the request/response correlation tables of the two
client implementations, the broadcast buffer of the server, the method
dispatcher, and the subscription fan-out of the thread-based client.

Each definition is a shallow embedding of one function of the source,
cited by file and line.  State that Python mutates in place is passed
explicitly; logs of externally visible actions (deliveries to callers,
timer operations, wire effects) are accumulated in lists so that the
theorems can speak about what a caller observes and in what order.
-/

/-! ### Small string helpers

The source compares ids and substrings of error text ("deleted" in
`str(e).lower()`, message ids inside error messages).  We model substring
containment over the character lists of the strings. -/

/-- Boolean test that `pre` is a prefix of the second list. -/
def prefChr : List Char → List Char → Bool
  | [], _ => true
  | _ :: _, [] => false
  | a :: as, b :: bs => decide (a = b) && prefChr as bs

/-- Boolean test that `needle` occurs contiguously inside `hay`. -/
def subChr (needle : List Char) : List Char → Bool
  | [] => prefChr needle []
  | hay@(_ :: t) => prefChr needle hay || subChr needle t

/-- The string `msg` mentions the string `id` (contiguous occurrence). -/
def mentions (msg id : String) : Prop := subChr id.toList msg.toList = true

instance (msg id : String) : Decidable (mentions msg id) := by
  unfold mentions; infer_instance

/-! ### Frame reassembly (claim C2)

The separator constant `ProtocolMessage.SEPARATOR` lives in the protocol
module, which is not under `src/`; per the spec (sections 4.1 and 6) it is
a fixed sentinel guaranteed absent from every encoded frame.  We model it
as an arbitrary sentinel character `sep` and quantify the theorems over
it; frames are character lists in which `sep` does not occur.

Both buffered receivers run the same loop (ipc/server.py lines 40-48 and
the async client `_receiver`, lines 106-114):

    buffer += raw_data
    while SEPARATOR in buffer:
        msg, buffer = buffer.split(SEPARATOR, 1)
        process(msg)

For a one-character separator, repeatedly splitting at the first
occurrence and keeping the tail is a single left-to-right pass that cuts
the buffer at every separator; `drainFrames` performs exactly those cuts
(`cur` is the text read since the last cut). -/

/-- One pass of the receive-loop splitting: cut `rest` at every occurrence
of `sep`, returning the completed frames in wire order and the trailing
text after the last separator (the retained partial frame). -/
def drainFramesAux (sep : Char) (cur : List Char) : List Char → List (List Char) × List Char
  | [] => ([], cur)
  | c :: cs =>
    if c = sep then
      let r := drainFramesAux sep [] cs
      (cur :: r.1, r.2)
    else
      drainFramesAux sep (cur ++ [c]) cs

/-- The receive loop body of the server (ipc/server.py lines 40-48) and of
the async client (`WebSocketClient._receiver`, client.py lines 106-114):
append the newly read text to the retained buffer, emit every complete
frame, and keep the remainder as the new buffer. -/
def handleRead (sep : Char) (buffer raw : List Char) : List (List Char) × List Char :=
  drainFramesAux sep [] (buffer ++ raw)

/-- The text before the first occurrence of `sep`, the first component of
`raw_data.split(SEPARATOR, 1)`. -/
def beforeSep (sep : Char) : List Char → List Char
  | [] => []
  | c :: cs => if c = sep then [] else c :: beforeSep sep cs

/-- The thread-based client message path, `WebSocketWorker._handle_message`
(lazytea client.py lines 77-85): if the separator occurs in the read, split
once and decode only the part before the first separator, discarding the
rest of the read; otherwise decode nothing.  There is no retained buffer
across reads.  Returns the list of frames handed to `decode`. -/
def handle_message (sep : Char) (raw : List Char) : List (List Char) :=
  if sep ∈ raw then [beforeSep sep raw] else []

/-! ### Payload values and the method dispatcher (claim C4)

`RequestPayload` and `ResponsePayload` live in the protocol module, which
is not under `src/`.  Modelled from the spec: a response carries a small
integer `code` (200, 400, 404, 500) and exactly one of `data` or `error`
(spec section 3); a request carries a `method` name and a keyword-style
`params` record (spec sections 4.5 and 6).  Payload values are opaque
structurally-typed records, modelled by a small JSON-like type. -/

/-- Opaque structurally-typed payload value (spec section 3).  The core
never interprets payloads, so atomic stand-ins suffice. -/
inductive Value : Type where
  | vnull : Value
  | vstr (s : String) : Value
  | vnat (n : Nat) : Value
deriving DecidableEq

/-- Modelled from the spec: the response payload record of the protocol
module (code, optional data, optional error); `data` is a key/value
record, used by the dispatcher as `{"result": value}`. -/
structure ResponsePayload where
  code : Nat
  data : Option (List (String × Value)) := none
  error : Option String := none
deriving DecidableEq

/-- Keyword-style parameters of a request. -/
abbrev Params := List (String × Value)

/-- Outcome of running a handler body once its required arguments are
bound: a normal return value, a raised pydantic `ValidationError`, or any
other raised exception carrying its textual description `str(e)`. -/
inductive HandlerResult : Type where
  | ok (v : Value) : HandlerResult
  | raiseValidation (msg : String) : HandlerResult
  | raiseExc (msg : String) : HandlerResult

/-- A registered handler: whether it is a coroutine function (server.py
line 131 branches on `asyncio.iscoroutinefunction`), the names of its
required parameters, and its body. -/
structure Handler : Type where
  isCoroutine : Bool
  required : List String
  body : Params → HandlerResult

/-- Python call semantics of `handler(**request.params)` (server.py lines
132 and 134): if a required parameter name is absent from the keyword
record the call raises `TypeError` before the body runs; the dispatcher
has no special handling for it, so it surfaces as a generic exception. -/
def invokeHandler (h : Handler) (params : Params) : HandlerResult :=
  match h.required.find? (fun r => (params.lookup r).isNone) with
  | some r => .raiseExc ("missing 1 required positional argument: " ++ r)
  | none => h.body params

/-- Result of `RequestPayload(**payload)` (server.py line 125).  The
pydantic validation itself lives in the missing protocol module; modelled
from the spec: the payload either fails structural validation or yields a
method name and keyword params. -/
inductive ParsedRequest : Type where
  | invalid (msg : String) : ParsedRequest
  | valid (method : String) (params : Params) : ParsedRequest

/-- The method dispatcher, `Server._handle_request` (ipc/server.py lines
117-149): `RequestPayload` validation failure is caught as
`ValidationError` and yields 400; an unregistered method yields 404; a
normal return (of a sync or coroutine handler alike) is wrapped as 200
with the value under `data.result`; a handler-raised `ValidationError` is
caught by the same `except ValidationError` clause as the payload parse
and yields 400; every other exception yields 500 with `str(e)`. -/
def handle_request (handlers : List (String × Handler)) (req : ParsedRequest) : ResponsePayload :=
  match req with
  | .invalid _ => { code := 400, error := some "Invalid request format" }
  | .valid method params =>
    match handlers.lookup method with
    | none => { code := 404, error := some "Method not found" }
    | some h =>
      match invokeHandler h params with
      | .ok v => { code := 200, data := some [("result", v)] }
      | .raiseValidation _ => { code := 400, error := some "Invalid request format" }
      | .raiseExc msg => { code := 500, error := some msg }

/-! ### Server connection set, broadcast buffer and token check (claims C3, C7)

State of `Server` (ipc/server.py lines 14-20) that the claims touch:
the set of active connections (modelled as a duplicate-free list of
connection ids in insertion order), the first-connection flag
`has_connected`, the pre-connection `message_buffer`, plus a log of
deliveries `(connection, type, payload)` in emission order standing for
the `ws.send_text` calls of `_real_broadcast`. -/

/-- A broadcast message: its type tag and payload. -/
abbrev Msg := String × Value

/-- The observable server state for broadcast and connection handling. -/
structure ServerState where
  active : List Nat
  has_connected : Bool
  message_buffer : List Msg
  deliveries : List (Nat × Msg)
deriving DecidableEq

/-- The freshly constructed server (ipc/server.py lines 14-20). -/
def serverInit : ServerState :=
  { active := [], has_connected := false, message_buffer := [], deliveries := [] }

/-- Core fan-out, `Server._real_broadcast` (ipc/server.py lines 80-98):
with no active connection the message is dropped; otherwise it is sent to
every active connection. -/
def real_broadcast (t : String) (d : Value) (s : ServerState) : ServerState :=
  if s.active = [] then s
  else { s with deliveries := s.deliveries ++ s.active.map (fun c => (c, (t, d))) }

/-- Buffer flush, `Server._flush_buffer` (ipc/server.py lines 71-78): copy
and clear the buffer, then broadcast each buffered message in enqueue
order.  In the source the flush runs as a task created at the first
accept (line 37); it is modelled as executing at that attachment, the
deterministic sequentialization of `asyncio.create_task` before the
accept coroutine blocks on the next read. -/
def flush_buffer (s : ServerState) : ServerState :=
  (s.message_buffer).foldl (fun st m => real_broadcast m.1 m.2 st) { s with message_buffer := [] }

/-- Broadcast entry point, `Server.broadcast` (ipc/server.py lines 62-69):
before any consumer has ever attached the message is appended to the
buffer; afterwards it is fanned out immediately. -/
def broadcast (t : String) (d : Value) (s : ServerState) : ServerState :=
  if s.has_connected = false then { s with message_buffer := s.message_buffer ++ [(t, d)] }
  else real_broadcast t d s

/-- The accepted-connection bookkeeping of `Server.start` (ipc/server.py
lines 29-37): add the connection to the active set; on the first-ever
attachment set `has_connected` (it is never reset anywhere in the class)
and flush the buffer. -/
def connectAccepted (c : Nat) (s : ServerState) : ServerState :=
  let s1 := { s with active := if c ∈ s.active then s.active else s.active ++ [c] }
  if s1.has_connected then s1
  else flush_buffer { s1 with has_connected := true }

/-- Connection cleanup, `Server._cleanup_connection` (ipc/server.py lines
186-198): the connection is removed from the active set; `has_connected`
and the buffer are not touched. -/
def cleanup_connection (c : Nat) (s : ServerState) : ServerState :=
  { s with active := s.active.erase c }

/-- The operations that can hit the registry after some point in time. -/
inductive ServerOp : Type where
  | conn (c : Nat) : ServerOp
  | disc (c : Nat) : ServerOp
  | pub (t : String) (d : Value) : ServerOp

/-- One registry operation. -/
def serverStep (s : ServerState) : ServerOp → ServerState
  | .conn c => connectAccepted c s
  | .disc c => cleanup_connection c s
  | .pub t d => broadcast t d s

/-- A sequence of registry operations. -/
def serverRun (s : ServerState) (ops : List ServerOp) : ServerState :=
  ops.foldl serverStep s

/-- Externally visible effects of the accept path before the receive
loop: the accept handshake, or a close frame with a code. -/
inductive WireEv : Type where
  | accepted : WireEv
  | closed (code : Nat) : WireEv
deriving DecidableEq

/-- Line 26 of ipc/server.py reads `websocket.close(code=4000)` with no
`await`: calling the coroutine function only constructs a coroutine
object, which is dropped without ever being scheduled, so no close
handshake with code 4000 (nor any other wire action) is performed. -/
def unawaited_close (_code : Nat) : List WireEv := []

/-- The token gate of `Server.start` (ipc/server.py lines 22-37): on a
token mismatch the handler returns at once — the unawaited `close` sends
nothing, the connection is never accepted and never added to the active
set, and the receive loop (hence any frame processing) is never entered;
on a match the connection is accepted and registered.  Returns the new
state, the wire effects, and whether the receive loop is entered. -/
def server_start_accept (cfgToken rqToken : String) (c : Nat) (s : ServerState) :
    ServerState × List WireEv × Bool :=
  if rqToken ≠ cfgToken then (s, unawaited_close 4000, false)
  else (connectAccepted c s, [WireEv.accepted], true)

/-! ### Thread-based client: correlation table (claims C1, C5, C6)

`MessageHandler` of lazytea client.py.  A pending entry records which of
the two optional caller signals were registered with `send_request`
(success_signal, error_signal); deliveries to the caller and operations
on the per-request `QTimer` are logged.  All table mutations in the
source hold `_requests_mutex` for the duration of the mutation, so each
operation below is one atomic step. -/

/-- A pending request entry (`RequestDict`, lazytea client.py lines
212-215), reduced to which caller signals exist; the timer itself is
tracked through the timer-operation log. -/
structure Entry where
  hasSuccess : Bool
  hasError : Bool
deriving DecidableEq

/-- Operations performed on the per-request timers. -/
inductive TimerOp : Type where
  | tstart (id : String) (ms : Nat) : TimerOp
  | tstop (id : String) : TimerOp
  | tdelete (id : String) : TimerOp
deriving DecidableEq

/-- An outcome delivered to the caller of `send_request` through one of
its signals. -/
inductive Outcome : Type where
  | respOk (id : String) : Outcome
  | respErr (id : String) : Outcome
  | timeoutErr (id : String) (msg : String) : Outcome
  | shutdownErr (id : String) (msg : String) : Outcome
  | sendFail (id : String) : Outcome
deriving DecidableEq

/-- The request id an outcome belongs to. -/
def Outcome.oid : Outcome → String
  | .respOk id => id
  | .respErr id => id
  | .timeoutErr id _ => id
  | .shutdownErr id _ => id
  | .sendFail id => id

/-- The observable state of the thread-based `MessageHandler`: the
pending table `_pending_requests` (a dict, keys unique), the outcomes
delivered so far, the timer operations performed so far, and whether
`stop` has been called (standing for the teardown of the owning
`WebSocketClient`). -/
structure HState where
  pending : List (String × Entry)
  outcomes : List Outcome
  timerOps : List TimerOp
  clientStopped : Bool
deriving DecidableEq

/-- Dictionary lookup on the pending table. -/
def lookupId (id : String) : List (String × Entry) → Option Entry
  | [] => none
  | (k, v) :: t => if k = id then some v else lookupId id t

/-- Dictionary `pop`: removing a key removes its (unique) binding. -/
def removeId (id : String) (l : List (String × Entry)) : List (String × Entry) :=
  l.filter (fun p => p.1 ≠ id)

/-- The message a timed-out request delivers through its error signal
(lazytea client.py line 311). -/
def timeoutMsg (id : String) : String := "Request timeout for " ++ id

/-- The message `stop` delivers through each pending error signal
(lazytea client.py lines 262-263). -/
def shutdownMsg : String := "Client is shutting down. Request cancelled."

/-- `MessageHandler.send_request` (lazytea client.py lines 270-300):
create a single-shot timer wired to `_handle_timeout`, register the entry
under the mutex, start the timer with the requested duration in
milliseconds, then attempt the send; if the send fails the entry is
cleaned up again (`_cleanup_request`) and the error signal, when present,
receives a send failure. -/
def send_request (id : String) (e : Entry) (timeoutMs : Nat) (sendOk : Bool) (s : HState) : HState :=
  let s1 := { s with pending := s.pending ++ [(id, e)],
                     timerOps := s.timerOps ++ [TimerOp.tstart id timeoutMs] }
  if sendOk then s1
  else
    let s2 := { s1 with pending := removeId id s1.pending,
                        timerOps := s1.timerOps ++ [TimerOp.tstop id, TimerOp.tdelete id] }
    if e.hasError then { s2 with outcomes := s2.outcomes ++ [Outcome.sendFail id] } else s2

/-- `MessageHandler._handle_response` (lazytea client.py lines 371-391):
under the mutex, a response whose correlation id is not pending is
dropped; otherwise the entry is popped and its timer stopped and deleted,
then the payload is delivered — an error payload through the error
signal when present (and only logged otherwise), a success payload
through the success signal when present.  `payloadHasError` is the truth
of `payload.get("error")`. -/
def handle_response (id : String) (payloadHasError : Bool) (s : HState) : HState :=
  match lookupId id s.pending with
  | none => s
  | some e =>
    let s1 := { s with pending := removeId id s.pending,
                       timerOps := s.timerOps ++ [TimerOp.tstop id, TimerOp.tdelete id] }
    if payloadHasError then
      if e.hasError then { s1 with outcomes := s1.outcomes ++ [Outcome.respErr id] } else s1
    else
      if e.hasSuccess then { s1 with outcomes := s1.outcomes ++ [Outcome.respOk id] } else s1

/-- `MessageHandler._handle_timeout` (lazytea client.py lines 302-316):
under the mutex, a fire for an id no longer pending returns at once;
otherwise the entry is popped, the error signal (when present) receives
the timeout message naming the id, and the timer is deleted. -/
def handle_timeout (id : String) (s : HState) : HState :=
  match lookupId id s.pending with
  | none => s
  | some e =>
    let s1 := { s with pending := removeId id s.pending }
    let s2 := if e.hasError
      then { s1 with outcomes := s1.outcomes ++ [Outcome.timeoutErr id (timeoutMsg id)] }
      else s1
    { s2 with timerOps := s2.timerOps ++ [TimerOp.tdelete id] }

/-- The per-entry loop of `MessageHandler.stop` (lazytea client.py lines
256-265): stop and delete the timer of every pending entry and deliver
the shutdown message through its error signal when present. -/
def stopLoop : List (String × Entry) → HState → HState
  | [], s => s
  | (id, e) :: rest, s =>
    let s1 := { s with timerOps := s.timerOps ++ [TimerOp.tstop id, TimerOp.tdelete id] }
    let s2 := if e.hasError
      then { s1 with outcomes := s1.outcomes ++ [Outcome.shutdownErr id shutdownMsg] }
      else s1
    stopLoop rest s2

/-- `MessageHandler.stop` (lazytea client.py lines 252-268): emit the
stopping hook, stop the owning client, then under the mutex fail every
pending entry and clear the table. -/
def mh_stop (s : HState) : HState :=
  let s1 := stopLoop s.pending { s with clientStopped := true }
  { s1 with pending := [] }

/-- The three ways a pending id can be hit (claim C1): a matching
response arrives with an error or non-error payload, its timer fires, or
the handler is shut down. -/
inductive Ev : Type where
  | resp (payloadHasError : Bool) : Ev
  | timeout : Ev
  | shutdown : Ev
deriving DecidableEq

/-- Run one event against the table, all targeting the same id. -/
def stepEv (id : String) (s : HState) : Ev → HState
  | .resp b => handle_response id b s
  | .timeout => handle_timeout id s
  | .shutdown => mh_stop s

/-- Run a sequence of events targeting the same id. -/
def runEv (id : String) (s : HState) (evs : List Ev) : HState :=
  evs.foldl (stepEv id) s

/-- The outcome the caller observes from the first event that hits a
pending entry registered with both signals. -/
def evOutcome (id : String) : Ev → Outcome
  | .resp true => Outcome.respErr id
  | .resp false => Outcome.respOk id
  | .timeout => Outcome.timeoutErr id (timeoutMsg id)
  | .shutdown => Outcome.shutdownErr id shutdownMsg

/-- The outcomes delivered so far for one id. -/
def deliveredFor (id : String) (s : HState) : List Outcome :=
  s.outcomes.filter (fun o => o.oid = id)

/-! ### Thread-based client: subscription fan-out (claim C8)

The broadcast branch of `MessageHandler.sort_data` (lazytea client.py
lines 326-344): the signal list of the message type is copied under the
subscriptions mutex, then each signal is emitted to in copy order.  A
`RuntimeError` whose text marks the underlying object as deleted causes
the signal to be removed from the live set of that type and the loop to
continue; any other `RuntimeError` is re-raised, aborting the remaining
fan-out.  A signal is identified by its id and its behaviour when
emitted to. -/

/-- Behaviour of `signal.emit` for one consumer: delivery succeeds, the
underlying object has been destroyed (Qt raises a `RuntimeError` whose
text contains "deleted"), or the delivery raises some other
`RuntimeError` with the given lower-cased text. -/
inductive SigBeh : Type where
  | live : SigBeh
  | deletedObj : SigBeh
  | raisesOther (msg : String) : SigBeh
deriving DecidableEq

/-- A subscribed consumer signal. -/
structure Sig where
  sid : Nat
  beh : SigBeh
deriving DecidableEq

/-- The error text Qt produces when emitting to a signal whose owner was
destroyed, already lower-cased as by `str(e).lower()`. -/
def qtDeletedMsg : String := "internal c++ object already deleted"

/-- The error text of `signal.emit`, or `none` on success. -/
def sigEmitErr (s : Sig) : Option String :=
  match s.beh with
  | .live => none
  | .deletedObj => some qtDeletedMsg
  | .raisesOther m => some m

/-- The check `"deleted" in str(e).lower()` (lazytea client.py line 338). -/
def marksDeleted (m : String) : Bool := subChr "deleted".toList m.toList

/-- The per-type signal registry `signal_dict` (a defaultdict of lists). -/
abbrev SigDict := List (String × List Sig)

/-- Lookup with the defaultdict default of an empty list. -/
def lookupSigs (t : String) : SigDict → List Sig
  | [] => []
  | (k, l) :: rest => if k = t then l else lookupSigs t rest

/-- Remove the first occurrence of a signal from a list, `list.remove`. -/
def removeFirstSig (x : Sig) : List Sig → List Sig
  | [] => []
  | a :: t => if a = x then t else a :: removeFirstSig x t

/-- The eviction step (lazytea client.py lines 339-342): under the mutex,
if the signal is still in the live list of the type, remove it.  With the
membership guard, removal of an absent signal is the identity, which is
exactly what `removeFirstSig` computes; entries of other types are kept
unchanged. -/
def evictSig (t : String) (x : Sig) : SigDict → SigDict
  | [] => []
  | (k, l) :: rest =>
    if k = t then (k, removeFirstSig x l) :: evictSig t x rest
    else (k, l) :: evictSig t x rest

/-- The fan-out loop over the copied signal list (lazytea client.py lines
334-344).  Returns the deliveries made in order, the registry after the
lazy evictions, and the re-raised error text if a non-deleted
`RuntimeError` aborted the loop. -/
def fanLoop (t : String) (p : Value) : List Sig → SigDict → List (Nat × Value) × SigDict × Option String
  | [], d => ([], d, none)
  | s :: rest, d =>
    match sigEmitErr s with
    | none =>
      let r := fanLoop t p rest d
      ((s.sid, p) :: r.1, r.2.1, r.2.2)
    | some m =>
      if marksDeleted m then fanLoop t p rest (evictSig t s d)
      else ([], d, some m)

/-- The broadcast branch of `MessageHandler.sort_data` (lazytea client.py
lines 329-344): copy the signal list of the type, then fan out. -/
def sort_data_broadcast (t : String) (p : Value) (d : SigDict) :
    List (Nat × Value) × SigDict × Option String :=
  fanLoop t p (lookupSigs t d) d

/-! ### Server fan-out over connections (claim C8)

The other fan-out the claim covers is `Server._real_broadcast`
(ipc/server.py lines 80-98).  Its consumers are the active connections,
not typed subscribers.  A connection is modelled by its id and by
whether delivering to it fails at each of the two places a failure can
occur: inside the per-connection `try` that builds the header and
encodes the message before `tasks.append(ws.send_text(encoded))` (a
failure there is caught, logged and skips only that connection), and
inside the awaited send itself, which runs under
`asyncio.gather(*tasks, return_exceptions=True)` (a failure there is
captured as an exception result: it aborts nothing and nothing is
re-raised).  The method never touches `active_connections`; a dead
connection is removed only by `_cleanup_connection` when its own
receive loop ends. -/

/-- A connection as `_real_broadcast` can observe it. -/
structure Conn where
  cid : Nat
  encodeFails : Bool
  sendFails : Bool
deriving DecidableEq

/-- The outcome `asyncio.gather(..., return_exceptions=True)` records for
one send task: the frame was delivered, or the send raised and the
exception was captured in the result list. -/
inductive SendRes : Type where
  | delivered : SendRes
  | failed : SendRes
deriving DecidableEq

/-- The task-creation loop of `_real_broadcast` (ipc/server.py lines
86-97): one send task per active connection, skipping exactly the
connections whose header construction or encode raised inside the
per-connection `try`. -/
def taskLoop : List Conn → List Conn
  | [] => []
  | c :: rest => if c.encodeFails then taskLoop rest else c :: taskLoop rest

/-- The `asyncio.gather(*tasks, return_exceptions=True)` of line 98:
every created task runs to completion; a failing send yields a captured
exception result in place, a working one a delivery. -/
def gatherAll : List Conn → List (Nat × SendRes)
  | [] => []
  | c :: rest =>
    (c.cid, if c.sendFails then SendRes.failed else SendRes.delivered) :: gatherAll rest

/-- `Server._real_broadcast` (ipc/server.py lines 80-98) with explicit
per-connection failures: with no active connection nothing happens;
otherwise the send results of the two phases above, paired with the
active set after the call — which the method leaves untouched (no
eviction happens here). -/
def real_broadcast_run (conns : List Conn) : List (Nat × SendRes) × List Conn :=
  if conns = [] then ([], conns)
  else (gatherAll (taskLoop conns), conns)

/-! ### Thread-based client: worker startup (claim C10)

`WebSocketClient` of lazytea client.py: the `_workers_started` flag, the
stop events of the two workers, the connection flag, and a log of the
`QThreadPool.start` calls issued. -/

/-- The observable state of the thread-based `WebSocketClient`. -/
structure WcState where
  workers_started : Bool
  connected : Bool
  ws_open : Bool
  ws_stop_event : Bool
  hb_stop_event : Bool
  pool_starts : List String
deriving DecidableEq

/-- `WebSocketClient.run` (lazytea client.py lines 168-175): under the
lock, a second call while the workers are started returns at once;
otherwise both workers are handed to the thread pool and the flag is
set. -/
def wc_run (c : WcState) : WcState :=
  if c.workers_started then c
  else { c with pool_starts := c.pool_starts ++ ["ws_worker", "heartbeat_worker"],
                workers_started := true }

/-- `WebSocketClient.stop` (lazytea client.py lines 194-209): set both
worker stop events, close the socket under the lock, and reset the
connected and started flags. -/
def wc_stop (c : WcState) : WcState :=
  { c with ws_stop_event := true, hb_stop_event := true, ws_open := false,
           connected := false, workers_started := false }

/-- Consecutive `run` calls with no intervening `stop`. -/
def wc_runN : Nat → WcState → WcState
  | 0, c => c
  | n + 1, c => wc_runN n (wc_run c)

/-! ### Async client (claims C1, C5, C6, C9)

The cooperative-task client of nonebot_plugin_noobui client.py:
`WebSocketClient` (connection manager) and `MessageHandler` (correlation
table over `asyncio.Future`s and the four fixed broadcast queues). -/

/-- The connection-owned fields touched by `WebSocketClient._cleanup`
(async client.py lines 149-158). -/
structure AsyncClientState where
  active : Bool
  tasks : List String
  ws_open : Bool
deriving DecidableEq

/-- A resolution of a pending future as the caller observes it. -/
inductive AsyncRes : Type where
  | respResult : AsyncRes
  | respInvalid : AsyncRes
  | timeoutExc (msg : String) : AsyncRes
deriving DecidableEq

/-- The observable joint state of the async `WebSocketClient` and its
`MessageHandler`: the client fields, the pending table
`pending_requests` mapping an id to whether its future is already done,
and the log of future resolutions in order. -/
structure AsyncSystem where
  client : AsyncClientState
  pending : List (String × Bool)
  resolutions : List (String × AsyncRes)
deriving DecidableEq

/-- Lookup in the async pending table. -/
def alookup (id : String) : List (String × Bool) → Option Bool
  | [] => none
  | (k, v) :: t => if k = id then some v else alookup id t

/-- Removal from the async pending table (dict `pop`). -/
def aremove (id : String) (l : List (String × Bool)) : List (String × Bool) :=
  l.filter (fun p => p.1 ≠ id)

/-- `WebSocketClient._cleanup` (async client.py lines 149-158): cancel
and clear the connection tasks, close the socket, reset `active`.  It is
the only teardown the async stack performs on connection shutdown (also
reached from `_handle_reconnection` and the manager loop, lines 38-52
and 89-95); no code of the async `MessageHandler` is invoked from it and
the pending table and its futures are left untouched. -/
def ac_cleanup (st : AsyncSystem) : AsyncSystem :=
  { st with client := { active := false, tasks := [], ws_open := false } }

/-- The response branch of the async `MessageHandler.sort_data` (async
client.py lines 218-227): pop the future of the correlation id if
pending; if it is not yet done, resolve it — with the parsed
`ResponsePayload` when the payload validates, and with the
`ValidationError` otherwise. -/
def a_sort_data_response (id : String) (payloadValid : Bool) (st : AsyncSystem) : AsyncSystem :=
  match alookup id st.pending with
  | none => st
  | some isDone =>
    let st1 := { st with pending := aremove id st.pending }
    if isDone then st1
    else { st1 with resolutions :=
            st1.resolutions ++ [(id, if payloadValid then AsyncRes.respResult else AsyncRes.respInvalid)] }

/-- The exception text set on a timed-out future by the async
`send_request` (async client.py line 215): `TimeoutError("Request
timeout")` — it does not name the request id; the id appears only in the
log warning of line 210. -/
def asyncTimeoutFutureMsg : String := "Request timeout"

/-- What the caller of the async `send_request` observes on timeout: the
bare `raise` of line 216 re-raises the `asyncio.TimeoutError` of
`asyncio.wait_for`, whose textual description is empty. -/
def asyncTimeoutCallerMsg : String := ""

/-- The timeout path of the async `send_request` (async client.py lines
209-216): under the request lock, if the id is still pending its future
is popped and, when not yet done, failed with the timeout exception. -/
def a_handle_timeout (id : String) (st : AsyncSystem) : AsyncSystem :=
  match alookup id st.pending with
  | none => st
  | some isDone =>
    let st1 := { st with pending := aremove id st.pending }
    if isDone then st1
    else { st1 with resolutions := st1.resolutions ++ [(id, AsyncRes.timeoutExc asyncTimeoutFutureMsg)] }

/-- The three paths of claim C1 on the async client: a matching response
(with a payload that validates or not), the timeout firing, and
connection shutdown. -/
inductive AEv : Type where
  | resp (payloadValid : Bool) : AEv
  | timeout : AEv
  | cleanup : AEv
deriving DecidableEq, Inhabited

/-- Run one async event against the system, targeting one id. -/
def aStep (id : String) (st : AsyncSystem) : AEv → AsyncSystem
  | .resp v => a_sort_data_response id v st
  | .timeout => a_handle_timeout id st
  | .cleanup => ac_cleanup st

/-- Run a sequence of async events targeting the same id. -/
def aRun (id : String) (st : AsyncSystem) (evs : List AEv) : AsyncSystem :=
  evs.foldl (aStep id) st

/-- The resolutions recorded so far for one id. -/
def aResolvedFor (id : String) (st : AsyncSystem) : List (String × AsyncRes) :=
  st.resolutions.filter (fun r => r.1 = id)

/-- The six interleavings of one response, one timeout fire and one
connection shutdown. -/
def asyncInterleavings (b : Bool) : List (List AEv) :=
  [[AEv.resp b, AEv.timeout, AEv.cleanup],
   [AEv.resp b, AEv.cleanup, AEv.timeout],
   [AEv.timeout, AEv.resp b, AEv.cleanup],
   [AEv.timeout, AEv.cleanup, AEv.resp b],
   [AEv.cleanup, AEv.resp b, AEv.timeout],
   [AEv.cleanup, AEv.timeout, AEv.resp b]]

/-- The resolution produced by the winning path: the first non-cleanup
event of the interleaving (connection shutdown resolves nothing on the
async client). -/
def aevOutcome (id : String) : AEv → String × AsyncRes
  | .resp true => (id, AsyncRes.respResult)
  | .resp false => (id, AsyncRes.respInvalid)
  | .timeout => (id, AsyncRes.timeoutExc asyncTimeoutFutureMsg)
  | .cleanup => (id, AsyncRes.respResult)

/-- The fixed queue table of the async `MessageHandler` (async client.py
lines 167-172); `sort_data` only reads it with `get`, so these four keys
are the only broadcast types the handler ever consumes. -/
def queueKeys : List String := ["message", "call_api", "bot_connect", "bot_disconnect"]

/-- An exception raised by `get_message` while building its queue
tasks. -/
inductive GmErr : Type where
  | valueError (msg : String) : GmErr
  | keyError (key : String) : GmErr
deriving DecidableEq

/-- The left-to-right evaluation of the list comprehension
`[asyncio.create_task(self.queues[t].get()) for t in types]` (async
client.py line 238): each `self.queues[t]` lookup either succeeds or
raises `KeyError` at the first type outside the queue table. -/
def buildTasks : List String → Except GmErr (List String)
  | [] => Except.ok []
  | t :: ts =>
    if t ∈ queueKeys then (buildTasks ts).map (fun l => t :: l)
    else Except.error (GmErr.keyError t)

/-- The argument checking and task construction of
`MessageHandler.get_message` (async client.py lines 233-238): zero types
raise `ValueError`; otherwise `self.queues[t]` is indexed for each
requested type in order, and the first type outside the four fixed keys
raises `KeyError`. -/
def get_message_tasks (types : List String) : Except GmErr (List String) :=
  match types with
  | [] => Except.error (GmErr.valueError "At least one type required")
  | _ => buildTasks types

/-! ### Concrete inputs used by counterexamples and witnesses -/

/-- A handler table as built by ipc/func_call.py: `get_plugin_config`
takes one required parameter `name` (lines 36-40). -/
def demoHandlers : List (String × Handler) :=
  [("get_plugin_config", { isCoroutine := false, required := ["name"],
                           body := fun _ => HandlerResult.ok (Value.vstr "cfg") })]

/-- An async client mid-session: connection up, receive and heartbeat
tasks running, three requests outstanding and unresolved. -/
def asyncMidSession : AsyncSystem :=
  { client := { active := true, tasks := ["receiver", "heartbeat"], ws_open := true },
    pending := [("req-1", false), ("req-2", false), ("req-3", false)],
    resolutions := [] }

/-- A request id of the shape `str(uuid.uuid4())` produces (36
characters). -/
def sampleUuid : String := "3fa85f64-5717-4562-b3fc-2c963f66afa6"

/-- A thread-client handler state with one pending entry registered with
both caller signals. -/
def oneEntryState : HState :=
  { pending := [(sampleUuid, { hasSuccess := true, hasError := true })],
    outcomes := [], timerOps := [], clientStopped := false }

/-- An async handler state with one pending, not yet done, future. -/
def oneAsyncState : AsyncSystem :=
  { client := { active := true, tasks := ["receiver", "heartbeat"], ws_open := true },
    pending := [(sampleUuid, false)], resolutions := [] }

/-- A subscription registry for type `message` holding a consumer whose
delivery raises a non-deleted `RuntimeError` followed by a live
consumer. -/
def abortDict : SigDict :=
  [("message", [{ sid := 1, beh := SigBeh.raisesOther "boom" }, { sid := 2, beh := SigBeh.live }])]

/-! ## Theorems -/

/-! ### Framing lemmas -/

theorem drainFramesAux_no_sep (sep : Char) :
    ∀ (rest cur : List Char), sep ∉ rest →
      drainFramesAux sep cur rest = ([], cur ++ rest) := by
  intro rest
  induction rest with
  | nil => intro cur _; simp [drainFramesAux]
  | cons c cs ih =>
    intro cur h
    have hc : ¬ c = sep := by
      intro hcs; exact h (hcs ▸ List.mem_cons_self c cs)
    have hcs : sep ∉ cs := fun hm => h (List.mem_cons_of_mem c hm)
    simp only [drainFramesAux, if_neg hc, ih (cur ++ [c]) hcs, List.append_assoc,
      List.singleton_append]

theorem drainFramesAux_frame (sep : Char) :
    ∀ (f cur rest : List Char), sep ∉ f →
      drainFramesAux sep cur (f ++ sep :: rest) =
        ((cur ++ f) :: (drainFramesAux sep [] rest).1, (drainFramesAux sep [] rest).2) := by
  intro f
  induction f with
  | nil =>
    intro cur rest _
    simp [drainFramesAux]
  | cons c cs ih =>
    intro cur rest h
    have hc : ¬ c = sep := by
      intro hcs; exact h (hcs ▸ List.mem_cons_self c cs)
    have hcs : sep ∉ cs := fun hm => h (List.mem_cons_of_mem c hm)
    have step : drainFramesAux sep cur ((c :: cs) ++ sep :: rest)
        = drainFramesAux sep (cur ++ [c]) (cs ++ sep :: rest) := by
      rw [List.cons_append]
      simp only [drainFramesAux, if_neg hc]
    rw [step, ih (cur ++ [c]) rest hcs]
    simp [List.append_assoc]

theorem beforeSep_frame (sep : Char) :
    ∀ (f rest : List Char), sep ∉ f →
      beforeSep sep (f ++ sep :: rest) = f := by
  intro f
  induction f with
  | nil => intro rest _; simp [beforeSep]
  | cons c cs ih =>
    intro rest h
    have hc : ¬ c = sep := by
      intro hcs; exact h (hcs ▸ List.mem_cons_self c cs)
    have hcs : sep ∉ cs := fun hm => h (List.mem_cons_of_mem c hm)
    rw [List.cons_append]
    simp only [beforeSep, if_neg hc]
    rw [ih rest hcs]


/-- Claim C2 (amended).  For the two buffered receivers (the server
receive loop and the async client receiver): a single read carrying two
complete frames concatenated with the separator yields exactly those two
frames in wire order (the first completed by any retained prefix `b`),
a read carrying only a prefix of a frame yields zero frames and retains
the prefix, and the retained prefix is decoded as part of its frame once
the remainder arrives in a later read.  The thread-based client handler,
by contrast, decodes only the first complete frame of such a read,
discards the rest of the read, and retains nothing from a
separator-free read. -/
theorem c2_framing_reassembly (sep : Char) (b f1 f2 : List Char)
    (hb : sep ∉ b) (h1 : sep ∉ f1) (h2 : sep ∉ f2) :
    handleRead sep b (f1 ++ sep :: (f2 ++ [sep])) = ([b ++ f1, f2], [])
    ∧ handleRead sep b f1 = ([], b ++ f1)
    ∧ handleRead sep (b ++ f1) (f2 ++ [sep]) = ([b ++ f1 ++ f2], [])
    ∧ handle_message sep (f1 ++ sep :: (f2 ++ [sep])) = [f1]
    ∧ handle_message sep f1 = [] := by
  have hb1 : sep ∉ b ++ f1 := by
    intro hm
    rcases List.mem_append.mp hm with h | h
    · exact hb h
    · exact h1 h
  have hnil : drainFramesAux sep ([] : List Char) ([] : List Char) = ([], []) := by
    simp [drainFramesAux]
  refine ⟨?_, ?_, ?_, ?_, ?_⟩
  · show drainFramesAux sep [] (b ++ (f1 ++ sep :: (f2 ++ [sep]))) = ([b ++ f1, f2], [])
    have hsplit : b ++ (f1 ++ sep :: (f2 ++ [sep])) = (b ++ f1) ++ sep :: (f2 ++ [sep]) := by
      simp [List.append_assoc]
    rw [hsplit, drainFramesAux_frame sep (b ++ f1) [] (f2 ++ [sep]) hb1]
    have h2s : f2 ++ [sep] = f2 ++ sep :: ([] : List Char) := rfl
    rw [h2s, drainFramesAux_frame sep f2 [] [] h2, hnil]
    simp
  · show drainFramesAux sep [] (b ++ f1) = ([], b ++ f1)
    rw [drainFramesAux_no_sep sep (b ++ f1) [] hb1]
    simp
  · show drainFramesAux sep [] ((b ++ f1) ++ (f2 ++ [sep])) = ([b ++ f1 ++ f2], [])
    have hsplit : (b ++ f1) ++ (f2 ++ [sep]) = ((b ++ f1) ++ f2) ++ sep :: ([] : List Char) := by
      simp [List.append_assoc]
    have hbf : sep ∉ (b ++ f1) ++ f2 := by
      intro hm
      rcases List.mem_append.mp hm with h | h
      · exact hb1 h
      · exact h2 h
    rw [hsplit, drainFramesAux_frame sep ((b ++ f1) ++ f2) [] [] hbf, hnil]
    simp [List.append_assoc]
  · have hmem : sep ∈ f1 ++ sep :: (f2 ++ [sep]) := by simp
    simp only [handle_message, if_pos hmem]
    rw [beforeSep_frame sep f1 (f2 ++ [sep]) h1]
  · simp only [handle_message, if_neg h1]

/-- Witness for claim C2 at a concrete separator and concrete frames. -/
theorem c2_framing_reassembly_witness :
    handleRead (Char.ofNat 31) []
        (['A', 'B'] ++ (Char.ofNat 31) :: (['C', 'D'] ++ [Char.ofNat 31]))
      = ([['A', 'B'], ['C', 'D']], [])
    ∧ handleRead (Char.ofNat 31) [] ['A', 'B'] = ([], ['A', 'B']) := by
  have h := c2_framing_reassembly (Char.ofNat 31) [] ['A', 'B'] ['C', 'D']
    (by decide) (by decide) (by decide)
  exact ⟨by simpa using h.1, by simpa using h.2.1⟩

/-- Counterexample to claim C2 as stated: on the thread-based client,
a single read carrying the two complete frames `AB` and `CD` is decoded
into the first frame only, the second is discarded; and a read carrying
only the prefix `AB` of a frame yields zero results with nothing
retained (the handler keeps no buffer between reads). -/
theorem c2_thread_counterexample :
    handle_message (Char.ofNat 31)
        (['A', 'B'] ++ (Char.ofNat 31) :: (['C', 'D'] ++ [Char.ofNat 31])) = [['A', 'B']]
    ∧ handle_message (Char.ofNat 31)
        (['A', 'B'] ++ (Char.ofNat 31) :: (['C', 'D'] ++ [Char.ofNat 31])) ≠ [['A', 'B'], ['C', 'D']]
    ∧ handle_message (Char.ofNat 31) ['A', 'B'] = [] := by
  decide

/-- Claim C4 (amended).  Dispatcher taxonomy of `Server._handle_request`:
an invalid request payload yields 400; an unregistered method yields 404;
a normal handler return is wrapped as 200 with the value under
`data.result` (uniformly for sync and coroutine handlers — the result
wrapping cannot see the `isCoroutine` flag); a handler-raised validation
error yields 400; any other handler exception yields 500 carrying the
exception text, and in particular a call whose params miss a
handler-required field yields 500 (not 400), because the `TypeError` of
the invocation is handled by the generic exception branch; every request
produces a response with one of these four codes, so no handler
exception escapes to the wire. -/
theorem c4_dispatcher_taxonomy (handlers : List (String × Handler)) :
    (∀ msg, handle_request handlers (.invalid msg)
      = { code := 400, error := some "Invalid request format" })
    ∧ (∀ m p, handlers.lookup m = none →
        handle_request handlers (.valid m p)
          = { code := 404, error := some "Method not found" })
    ∧ (∀ m p h v, handlers.lookup m = some h → invokeHandler h p = .ok v →
        handle_request handlers (.valid m p)
          = { code := 200, data := some [("result", v)] })
    ∧ (∀ m p h msg, handlers.lookup m = some h → invokeHandler h p = .raiseValidation msg →
        handle_request handlers (.valid m p)
          = { code := 400, error := some "Invalid request format" })
    ∧ (∀ m p h msg, handlers.lookup m = some h → invokeHandler h p = .raiseExc msg →
        handle_request handlers (.valid m p) = { code := 500, error := some msg })
    ∧ (∀ m p h r, handlers.lookup m = some h →
        h.required.find? (fun n => (p.lookup n).isNone) = some r →
        (handle_request handlers (.valid m p)).code = 500)
    ∧ (∀ req, (handle_request handlers req).code = 200 ∨ (handle_request handlers req).code = 400
        ∨ (handle_request handlers req).code = 404 ∨ (handle_request handlers req).code = 500) := by
  refine ⟨fun msg => rfl, ?_, ?_, ?_, ?_, ?_, ?_⟩
  · intro m p hl; simp [handle_request, hl]
  · intro m p h v hl hi; simp [handle_request, hl, hi]
  · intro m p h msg hl hi; simp [handle_request, hl, hi]
  · intro m p h msg hl hi; simp [handle_request, hl, hi]
  · intro m p h r hl hf
    simp [handle_request, hl, invokeHandler, hf]
  · intro req
    match req with
    | .invalid msg => right; left; rfl
    | .valid m p =>
      cases hl : handlers.lookup m with
      | none => right; right; left; simp [handle_request, hl]
      | some h =>
        cases hi : invokeHandler h p with
        | ok v => left; simp [handle_request, hl, hi]
        | raiseValidation msg => right; left; simp [handle_request, hl, hi]
        | raiseExc msg => right; right; right; simp [handle_request, hl, hi]

/-- Uniform treatment of sync and coroutine handlers (claim C4): the
response is independent of the `isCoroutine` flag of the bound
handler. -/
theorem c4_coroutine_uniformity (h : Handler) (b : Bool) (m : String) (p : Params) :
    handle_request [(m, { h with isCoroutine := b })] (.valid m p)
      = handle_request [(m, h)] (.valid m p) := by
  simp [handle_request, List.lookup, invokeHandler]

/-- Counterexample to claim C4 as stated: calling the registered handler
`get_plugin_config` (which requires the parameter `name`) with empty
params yields code 500 carrying the `TypeError` text, not the claimed
400. -/
theorem c4_missing_param_counterexample :
    handle_request demoHandlers (.valid "get_plugin_config" [])
      = { code := 500, error := some "missing 1 required positional argument: name" }
    ∧ (handle_request demoHandlers (.valid "get_plugin_config" [])).code ≠ 400 := by
  exact ⟨rfl, by decide⟩

/-- Witness for claim C4 at concrete inputs: an unregistered method gets
404 and a well-parameterized call gets 200 with the result under data. -/
theorem c4_dispatcher_taxonomy_witness :
    handle_request demoHandlers (.valid "nope" [])
      = { code := 404, error := some "Method not found" }
    ∧ handle_request demoHandlers (.valid "get_plugin_config" [("name", Value.vstr "alpha")])
      = { code := 200, data := some [("result", Value.vstr "cfg")] } := by
  refine ⟨(c4_dispatcher_taxonomy demoHandlers).2.1 "nope" [] rfl, ?_⟩
  exact (c4_dispatcher_taxonomy demoHandlers).2.2.1 "get_plugin_config"
    [("name", Value.vstr "alpha")] _ (Value.vstr "cfg") rfl rfl

/-- Claim C7: behaviour of the token gate at a failing input.  With the
configured token `secret` and a connection carrying token `wrong`, the
connection is never accepted, never added to the active set and no frame
from it is processed — but, because line 26 never awaits the
`websocket.close(code=4000)` coroutine, no close with code 4000 (nor any
wire effect at all) is performed either, contradicting the documented
rejection-with-close-code behaviour.  A matching token is accepted and
registered. -/
theorem c7_token_mismatch_never_closed :
    server_start_accept "secret" "wrong" 1 serverInit = (serverInit, [], false)
    ∧ WireEv.closed 4000 ∉ (server_start_accept "secret" "wrong" 1 serverInit).2.1
    ∧ server_start_accept "secret" "secret" 1 serverInit
      = ({ serverInit with active := [1], has_connected := true }, [WireEv.accepted], true) := by
  decide

/-! ### Broadcast buffer lemmas (claim C3) -/

theorem real_broadcast_flags (t : String) (d : Value) (s : ServerState) :
    (real_broadcast t d s).has_connected = s.has_connected
    ∧ (real_broadcast t d s).message_buffer = s.message_buffer := by
  unfold real_broadcast; split <;> simp

theorem connectAccepted_connected (c : Nat) (s : ServerState) (h : s.has_connected = true) :
    connectAccepted c s
      = { s with active := if c ∈ s.active then s.active else s.active ++ [c] } := by
  simp [connectAccepted, h]

theorem serverRun_keeps_drained (ops : List ServerOp) :
    ∀ s : ServerState, s.has_connected = true → s.message_buffer = [] →
      (serverRun s ops).has_connected = true ∧ (serverRun s ops).message_buffer = [] := by
  induction ops with
  | nil => intro s h1 h2; exact ⟨h1, h2⟩
  | cons op rest ih =>
    intro s h1 h2
    have hstep : (serverStep s op).has_connected = true
        ∧ (serverStep s op).message_buffer = [] := by
      cases op with
      | conn c =>
        rw [show serverStep s (ServerOp.conn c) = connectAccepted c s from rfl,
          connectAccepted_connected c s h1]
        exact ⟨h1, h2⟩
      | disc c => exact ⟨h1, h2⟩
      | pub t d =>
        show (broadcast t d s).has_connected = true ∧ (broadcast t d s).message_buffer = []
        unfold broadcast
        rw [h1]
        simp only [Bool.true_eq_false, if_false]
        rw [(real_broadcast_flags t d s).1, (real_broadcast_flags t d s).2]
        exact ⟨h1, h2⟩
    exact ih (serverStep s op) hstep.1 hstep.2

/-- Claim C3.  Publishing `e1` then `e2` while no consumer has ever
attached appends both to the broadcast buffer in order and delivers
nothing; the first-ever attachment of consumer `c1` flushes the buffer to
`c1` in enqueue order exactly once and discards it; a consumer `c2`
attaching afterwards receives neither buffered event; and buffering never
re-arms for the rest of the registry lifetime — once `has_connected` is
set and the buffer drained, any further operation sequence (including
disconnecting every consumer) leaves the buffer empty and the flag
set. -/
theorem c3_broadcast_buffering (e1 e2 : Msg) (c1 c2 : Nat) :
    (serverRun serverInit [ServerOp.pub e1.1 e1.2, ServerOp.pub e2.1 e2.2]).message_buffer
      = [e1, e2]
    ∧ (serverRun serverInit [ServerOp.pub e1.1 e1.2, ServerOp.pub e2.1 e2.2]).deliveries = []
    ∧ (serverRun serverInit
        [ServerOp.pub e1.1 e1.2, ServerOp.pub e2.1 e2.2, ServerOp.conn c1]).deliveries
      = [(c1, e1), (c1, e2)]
    ∧ (serverRun serverInit
        [ServerOp.pub e1.1 e1.2, ServerOp.pub e2.1 e2.2, ServerOp.conn c1]).message_buffer = []
    ∧ (serverRun serverInit
        [ServerOp.pub e1.1 e1.2, ServerOp.pub e2.1 e2.2, ServerOp.conn c1,
         ServerOp.conn c2]).deliveries
      = [(c1, e1), (c1, e2)]
    ∧ (∀ ops : List ServerOp, ∀ s : ServerState, s.has_connected = true →
        s.message_buffer = [] →
        (serverRun s ops).has_connected = true ∧ (serverRun s ops).message_buffer = []) := by
  have hB : serverRun serverInit
      [ServerOp.pub e1.1 e1.2, ServerOp.pub e2.1 e2.2, ServerOp.conn c1]
      = { active := [c1], has_connected := true, message_buffer := [],
          deliveries := [(c1, e1), (c1, e2)] } := rfl
  refine ⟨rfl, rfl, ?_, ?_, ?_, ?_⟩
  · rw [hB]
  · rw [hB]
  · have h4 : serverRun serverInit
        [ServerOp.pub e1.1 e1.2, ServerOp.pub e2.1 e2.2, ServerOp.conn c1, ServerOp.conn c2]
        = connectAccepted c2 (serverRun serverInit
            [ServerOp.pub e1.1 e1.2, ServerOp.pub e2.1 e2.2, ServerOp.conn c1]) := rfl
    rw [h4, hB, connectAccepted_connected c2 _ rfl]
  · intro ops s h1 h2
    exact serverRun_keeps_drained ops s h1 h2

/-- Witness for claim C3 at concrete events, consumers and a later
operation sequence in which every consumer disconnects. -/
theorem c3_broadcast_buffering_witness :
    (serverRun serverInit
        [ServerOp.pub "message" (Value.vnat 1), ServerOp.pub "message" (Value.vnat 2),
         ServerOp.conn 7]).deliveries
      = [(7, ("message", Value.vnat 1)), (7, ("message", Value.vnat 2))]
    ∧ (serverRun (⟨[7], true, [], []⟩ : ServerState)
        [ServerOp.disc 7, ServerOp.pub "message" (Value.vnat 3)]).message_buffer = [] := by
  refine ⟨?_, ?_⟩
  · exact (c3_broadcast_buffering ("message", Value.vnat 1) ("message", Value.vnat 2) 7 9).2.2.1
  · exact ((c3_broadcast_buffering ("message", Value.vnat 1) ("message", Value.vnat 2) 7 9).2.2.2.2.2
      [ServerOp.disc 7, ServerOp.pub "message" (Value.vnat 3)]
      (⟨[7], true, [], []⟩ : ServerState) rfl rfl).2

/-! ### Worker startup lemmas (claim C10) -/

theorem wc_run_started (c : WcState) : (wc_run c).workers_started = true := by
  unfold wc_run; split
  · assumption
  · rfl

theorem wc_run_idem (c : WcState) : wc_run (wc_run c) = wc_run c := by
  have h := wc_run_started c
  conv_lhs => rw [wc_run]
  rw [if_pos h]

/-- Claim C10.  `WebSocketClient.run` is idempotent with respect to
worker startup: any sequence of `n + 1` consecutive `run` calls with no
intervening `stop` equals a single `run`; a call while the workers are
started leaves the state unchanged; the first call hands exactly the
receive and heartbeat workers to the thread pool and sets the flag; and
after `stop` resets the flag, a further `run` starts workers again. -/
theorem c10_run_idempotent :
    (∀ (c : WcState) (n : Nat), wc_runN (n + 1) c = wc_run c)
    ∧ (∀ c : WcState, c.workers_started = true → wc_run c = c)
    ∧ (∀ c : WcState, c.workers_started = false →
        (wc_run c).pool_starts = c.pool_starts ++ ["ws_worker", "heartbeat_worker"]
        ∧ (wc_run c).workers_started = true)
    ∧ (∀ c : WcState, (wc_stop c).workers_started = false
        ∧ (wc_run (wc_stop c)).pool_starts
            = (wc_stop c).pool_starts ++ ["ws_worker", "heartbeat_worker"]) := by
  have hrun : ∀ (c : WcState) (n : Nat), wc_runN (n + 1) c = wc_run c := by
    intro c n
    induction n generalizing c with
    | zero => rfl
    | succ m ih =>
      show wc_runN (m + 1) (wc_run c) = wc_run c
      rw [ih (wc_run c), wc_run_idem]
  refine ⟨hrun, ?_, ?_, ?_⟩
  · intro c h; unfold wc_run; rw [if_pos h]
  · intro c h
    constructor
    · unfold wc_run; rw [if_neg (by simp [h])]
    · exact wc_run_started c
  · intro c
    refine ⟨rfl, ?_⟩
    unfold wc_run
    rw [if_neg (by simp [wc_stop])]

/-- Witness for claim C10 at a concrete client state: three consecutive
run calls equal one, and after a stop the workers are started anew. -/
theorem c10_run_idempotent_witness :
    wc_runN 3 (⟨false, false, false, false, false, []⟩ : WcState)
      = wc_run (⟨false, false, false, false, false, []⟩ : WcState)
    ∧ (wc_run (⟨false, false, false, false, false, []⟩ : WcState)).pool_starts
      = ["ws_worker", "heartbeat_worker"]
    ∧ (wc_run (wc_stop (wc_run (⟨false, false, false, false, false, []⟩ : WcState)))).pool_starts
      = ["ws_worker", "heartbeat_worker", "ws_worker", "heartbeat_worker"] := by
  refine ⟨c10_run_idempotent.1 ⟨false, false, false, false, false, []⟩ 2, ?_, ?_⟩
  · exact ((c10_run_idempotent.2.2.1 ⟨false, false, false, false, false, []⟩ rfl).1).trans rfl
  · exact ((c10_run_idempotent.2.2.2
      (wc_run (⟨false, false, false, false, false, []⟩ : WcState))).2).trans rfl

/-! ### Queue lookup lemmas (claim C9) -/

theorem buildTasks_all_keys : ∀ ts : List String, (∀ t ∈ ts, t ∈ queueKeys) →
    buildTasks ts = Except.ok ts := by
  intro ts
  induction ts with
  | nil => intro _; rfl
  | cons a rest ih =>
    intro h
    have ha : a ∈ queueKeys := h a (List.mem_cons_self a rest)
    have hrest : ∀ t ∈ rest, t ∈ queueKeys := fun t ht => h t (List.mem_cons_of_mem a ht)
    simp [buildTasks, ha, ih hrest, Except.map]

theorem buildTasks_bad_key : ∀ (ts : List String) (t : String), t ∈ ts → t ∉ queueKeys →
    ∃ u, buildTasks ts = Except.error (GmErr.keyError u) ∧ u ∉ queueKeys := by
  intro ts
  induction ts with
  | nil => intro t ht _; exact absurd ht (List.not_mem_nil t)
  | cons a rest ih =>
    intro t ht hbad
    by_cases ha : a ∈ queueKeys
    · have hta : t ≠ a := fun he => hbad (he ▸ ha)
      have htrest : t ∈ rest := by
        rcases List.mem_cons.mp ht with h | h
        · exact absurd h hta
        · exact h
      obtain ⟨u, hu, hunk⟩ := ih t htrest hbad
      refine ⟨u, ?_, hunk⟩
      simp [buildTasks, ha, hu, Except.map]
    · exact ⟨a, by simp [buildTasks, ha], ha⟩

/-- Claim C9.  The async `MessageHandler.get_message` raises `ValueError`
when called with zero type arguments; any requested type outside the four
fixed queue keys `message`, `call_api`, `bot_connect`, `bot_disconnect`
raises `KeyError` (for some offending key, itself outside the table), so
only those four broadcast types can be consumed through this interface;
and a nonempty request of known types succeeds. -/
theorem c9_get_message_queues (types : List String) :
    (types = [] →
      get_message_tasks types = Except.error (GmErr.valueError "At least one type required"))
    ∧ (∀ t ∈ types, t ∉ queueKeys →
        ∃ u, get_message_tasks types = Except.error (GmErr.keyError u) ∧ u ∉ queueKeys)
    ∧ ((types ≠ [] ∧ ∀ t ∈ types, t ∈ queueKeys) →
        get_message_tasks types = Except.ok types) := by
  refine ⟨?_, ?_, ?_⟩
  · intro h; rw [h]; rfl
  · intro t ht hbad
    match types, ht with
    | a :: rest, ht =>
      have := buildTasks_bad_key (a :: rest) t ht hbad
      simpa [get_message_tasks] using this
  · rintro ⟨hne, hall⟩
    match types, hne with
    | a :: rest, _ =>
      have := buildTasks_all_keys (a :: rest) hall
      simpa [get_message_tasks] using this

/-- Witness for claim C9 at concrete type arguments. -/
theorem c9_get_message_queues_witness :
    get_message_tasks [] = Except.error (GmErr.valueError "At least one type required")
    ∧ (∃ u, get_message_tasks ["message", "oops"] = Except.error (GmErr.keyError u)
        ∧ u ∉ queueKeys)
    ∧ get_message_tasks ["message", "call_api"] = Except.ok ["message", "call_api"] := by
  refine ⟨(c9_get_message_queues []).1 rfl, ?_, ?_⟩
  · exact (c9_get_message_queues ["message", "oops"]).2.1 "oops" (by decide) (by decide)
  · exact (c9_get_message_queues ["message", "call_api"]).2.2 ⟨by decide, by decide⟩

/-! ### Fan-out lemmas (claim C8) -/

theorem marksDeleted_qt : marksDeleted qtDeletedMsg = true := by decide

theorem removeFirstSig_of_not_mem (x : Sig) :
    ∀ pre rest : List Sig, x ∉ pre →
      removeFirstSig x (pre ++ x :: rest) = pre ++ rest := by
  intro pre
  induction pre with
  | nil => intro rest _; simp [removeFirstSig]
  | cons a t ih =>
    intro rest h
    have hax : ¬ a = x := fun he => h (he ▸ List.mem_cons_self a t)
    have hxt : x ∉ t := fun hm => h (List.mem_cons_of_mem a hm)
    simp only [List.cons_append, removeFirstSig, if_neg hax]
    exact congrArg (a :: ·) (ih rest hxt)

theorem evictSig_lookup (t : String) (x : Sig) :
    ∀ d : SigDict,
      lookupSigs t (evictSig t x d) = removeFirstSig x (lookupSigs t d)
      ∧ ∀ u, u ≠ t → lookupSigs u (evictSig t x d) = lookupSigs u d := by
  intro d
  induction d with
  | nil => exact ⟨rfl, fun u _ => rfl⟩
  | cons p rest ih =>
    obtain ⟨k, sigs⟩ := p
    by_cases hk : k = t
    · subst hk
      constructor
      · simp [evictSig, lookupSigs]
      · intro u hu
        have hku : ¬ k = u := fun he => hu he.symm
        simp only [evictSig, if_pos rfl, lookupSigs, if_neg hku]
        exact ih.2 u hu
    · constructor
      · simp only [evictSig, if_neg hk, lookupSigs]
        exact ih.1
      · intro u hu
        by_cases hku : k = u
        · subst hku
          simp [evictSig, lookupSigs, hu]
        · simp only [evictSig, if_neg hk, lookupSigs, if_neg hku]
          exact ih.2 u hu

theorem fanLoop_deliveries (t : String) (p : Value) :
    ∀ (sigs : List Sig) (d : SigDict),
      (∀ s ∈ sigs, s.beh = SigBeh.live ∨ s.beh = SigBeh.deletedObj) →
      (fanLoop t p sigs d).1
          = (sigs.filter (fun s => s.beh = SigBeh.live)).map (fun s => (s.sid, p))
      ∧ (fanLoop t p sigs d).2.2 = none := by
  intro sigs
  induction sigs with
  | nil => intro d _; exact ⟨rfl, rfl⟩
  | cons s rest ih =>
    intro d h
    have hrest : ∀ x ∈ rest, x.beh = SigBeh.live ∨ x.beh = SigBeh.deletedObj :=
      fun x hx => h x (List.mem_cons_of_mem s hx)
    rcases h s (List.mem_cons_self s rest) with hl | hd
    · have := ih d hrest
      constructor
      · simp [fanLoop, sigEmitErr, hl, this.1]
      · simp [fanLoop, sigEmitErr, hl, this.2]
    · have := ih (evictSig t s d) hrest
      constructor
      · simp [fanLoop, sigEmitErr, hd, marksDeleted_qt, this.1]
      · simp [fanLoop, sigEmitErr, hd, marksDeleted_qt, this.2]

theorem fanLoop_dict (t : String) (p : Value) :
    ∀ (sigs pre : List Sig) (d : SigDict),
      (∀ s ∈ sigs, s.beh = SigBeh.live ∨ s.beh = SigBeh.deletedObj) →
      (pre ++ sigs).Nodup →
      lookupSigs t d = pre ++ sigs →
      lookupSigs t (fanLoop t p sigs d).2.1
          = pre ++ sigs.filter (fun s => s.beh = SigBeh.live)
      ∧ ∀ u, u ≠ t → lookupSigs u (fanLoop t p sigs d).2.1 = lookupSigs u d := by
  intro sigs
  induction sigs with
  | nil =>
    intro pre d _ _ hl
    constructor
    · simpa [fanLoop] using hl
    · intro u _; rfl
  | cons s rest ih =>
    intro pre d h hnd hl
    have hrest : ∀ x ∈ rest, x.beh = SigBeh.live ∨ x.beh = SigBeh.deletedObj :=
      fun x hx => h x (List.mem_cons_of_mem s hx)
    rcases h s (List.mem_cons_self s rest) with hlive | hdel
    · have hnd1 : ((pre ++ [s]) ++ rest).Nodup := by
        simpa [List.append_assoc] using hnd
      have hl1 : lookupSigs t d = (pre ++ [s]) ++ rest := by
        simpa [List.append_assoc] using hl
      have hrec := ih (pre ++ [s]) d hrest hnd1 hl1
      constructor
      · have heq : (fanLoop t p (s :: rest) d).2.1 = (fanLoop t p rest d).2.1 := by
          simp [fanLoop, sigEmitErr, hlive]
        rw [heq, hrec.1, List.filter_cons_of_pos (by simp [hlive])]
        simp [List.append_assoc]
      · intro u hu
        have heq : (fanLoop t p (s :: rest) d).2.1 = (fanLoop t p rest d).2.1 := by
          simp [fanLoop, sigEmitErr, hlive]
        rw [heq]
        exact hrec.2 u hu
    · have hmid := List.nodup_middle.mp hnd
      have hs_not : s ∉ pre ++ rest := (List.nodup_cons.mp hmid).1
      have hs_pre : s ∉ pre := fun hm => hs_not (List.mem_append_left rest hm)
      have hnd1 : (pre ++ rest).Nodup := (List.nodup_cons.mp hmid).2
      have hl1 : lookupSigs t (evictSig t s d) = pre ++ rest := by
        rw [(evictSig_lookup t s d).1, hl, removeFirstSig_of_not_mem s pre rest hs_pre]
      have hrec := ih pre (evictSig t s d) hrest hnd1 hl1
      have heq : (fanLoop t p (s :: rest) d).2.1 = (fanLoop t p rest (evictSig t s d)).2.1 := by
        simp [fanLoop, sigEmitErr, hdel, marksDeleted_qt]
      constructor
      · rw [heq, hrec.1, List.filter_cons_of_neg (by simp [hdel])]
      · intro u hu
        rw [heq, hrec.2 u hu]
        exact (evictSig_lookup t s d).2 u hu

theorem taskLoop_eq_filter : ∀ conns : List Conn,
    taskLoop conns = conns.filter (fun c => !c.encodeFails) := by
  intro conns
  induction conns with
  | nil => rfl
  | cons c rest ih =>
    cases hc : c.encodeFails with
    | true => simp [taskLoop, hc, ih]
    | false => simp [taskLoop, hc, ih]

theorem gatherAll_eq_map : ∀ conns : List Conn,
    gatherAll conns = conns.map
      (fun c => (c.cid, if c.sendFails then SendRes.failed else SendRes.delivered)) := by
  intro conns
  induction conns with
  | nil => rfl
  | cons c rest ih => simp [gatherAll, ih]

theorem real_broadcast_run_results (conns : List Conn) (hne : conns ≠ []) :
    (real_broadcast_run conns).1
      = (conns.filter (fun c => !c.encodeFails)).map
          (fun c => (c.cid, if c.sendFails then SendRes.failed else SendRes.delivered)) := by
  unfold real_broadcast_run
  rw [if_neg hne, taskLoop_eq_filter, gatherAll_eq_map]

/-- Claim C8 (amended), covering both fan-outs the claim cites.
Thread-based client (`sort_data`): when every delivery failure among the
subscribed consumers of type `t` is of the destroyed-consumer kind (a
`RuntimeError` whose text marks the object deleted), no failure prevents
delivery to the remaining live consumers — every live consumer receives
the event, in subscription order; nothing is re-raised; each destroyed
consumer is evicted from the live set of exactly the dispatched type at
this dispatch attempt (no earlier sweep has removed it — it is still
subscribed when the dispatch begins); and the subscription sets of all
other types are untouched.  A delivery failure of any other kind is
re-raised there and aborts the remaining fan-out (see the
counterexample).  Server (`_real_broadcast`): a failure delivering to
one connection never prevents delivery to the others and nothing is
re-raised — a connection whose message preparation raises is skipped by
its own `try`, every remaining send runs under `gather` with
`return_exceptions=True`, and every healthy connection receives the
event — but no consumer is ever evicted at this dispatch: the active
set is left exactly as it was (a dead connection is removed only by its
own cleanup). -/
theorem c8_fanout_lazy_eviction (t : String) (p : Value) (d : SigDict)
    (hbeh : ∀ s ∈ lookupSigs t d, s.beh = SigBeh.live ∨ s.beh = SigBeh.deletedObj)
    (hnd : (lookupSigs t d).Nodup) :
    (sort_data_broadcast t p d).1
        = ((lookupSigs t d).filter (fun s => s.beh = SigBeh.live)).map (fun s => (s.sid, p))
    ∧ (sort_data_broadcast t p d).2.2 = none
    ∧ lookupSigs t (sort_data_broadcast t p d).2.1
        = (lookupSigs t d).filter (fun s => s.beh = SigBeh.live)
    ∧ (∀ u, u ≠ t → lookupSigs u (sort_data_broadcast t p d).2.1 = lookupSigs u d)
    ∧ (∀ conns : List Conn, (real_broadcast_run conns).2 = conns)
    ∧ (∀ conns : List Conn, conns ≠ [] →
        (real_broadcast_run conns).1
          = (conns.filter (fun c => !c.encodeFails)).map
              (fun c => (c.cid, if c.sendFails then SendRes.failed else SendRes.delivered)))
    ∧ (∀ (conns : List Conn) (c : Conn), c ∈ conns →
        c.encodeFails = false → c.sendFails = false →
        (c.cid, SendRes.delivered) ∈ (real_broadcast_run conns).1) := by
  have hdel := fanLoop_deliveries t p (lookupSigs t d) d hbeh
  have hdict := fanLoop_dict t p (lookupSigs t d) [] d hbeh (by simpa using hnd) (by simp)
  refine ⟨hdel.1, hdel.2, by simpa using hdict.1, hdict.2, ?_, ?_, ?_⟩
  · intro conns
    unfold real_broadcast_run
    split
    · rfl
    · rfl
  · intro conns hne
    exact real_broadcast_run_results conns hne
  · intro conns c hc hce hcs
    have hne : conns ≠ [] := List.ne_nil_of_mem hc
    rw [real_broadcast_run_results conns hne]
    have hcf : c ∈ conns.filter (fun x => !x.encodeFails) := by
      rw [List.mem_filter]
      exact ⟨hc, by simp [hce]⟩
    exact List.mem_map.mpr ⟨c, hcf, by simp [hcs]⟩

/-- Witness for claim C8: a registry for type `message` with a live
consumer, a destroyed consumer and another live consumer; dispatching
delivers to both live consumers in order, evicts the destroyed one from
`message` only, and leaves the `call_api` set untouched.  On the server
side, broadcasting to a failing connection 1 and a healthy connection 2
still delivers to 2 and leaves the active set unchanged. -/
theorem c8_fanout_lazy_eviction_witness :
    (sort_data_broadcast "message" (Value.vnat 5)
        [("message", [⟨1, SigBeh.live⟩, ⟨2, SigBeh.deletedObj⟩, ⟨3, SigBeh.live⟩]),
         ("call_api", [⟨2, SigBeh.deletedObj⟩])]).1
      = [(1, Value.vnat 5), (3, Value.vnat 5)]
    ∧ lookupSigs "message" (sort_data_broadcast "message" (Value.vnat 5)
        [("message", [⟨1, SigBeh.live⟩, ⟨2, SigBeh.deletedObj⟩, ⟨3, SigBeh.live⟩]),
         ("call_api", [⟨2, SigBeh.deletedObj⟩])]).2.1
      = [⟨1, SigBeh.live⟩, ⟨3, SigBeh.live⟩]
    ∧ lookupSigs "call_api" (sort_data_broadcast "message" (Value.vnat 5)
        [("message", [⟨1, SigBeh.live⟩, ⟨2, SigBeh.deletedObj⟩, ⟨3, SigBeh.live⟩]),
         ("call_api", [⟨2, SigBeh.deletedObj⟩])]).2.1
      = [⟨2, SigBeh.deletedObj⟩]
    ∧ (real_broadcast_run [⟨1, false, true⟩, ⟨2, false, false⟩]).2
      = [⟨1, false, true⟩, ⟨2, false, false⟩]
    ∧ (2, SendRes.delivered) ∈ (real_broadcast_run [⟨1, false, true⟩, ⟨2, false, false⟩]).1 := by
  have h := c8_fanout_lazy_eviction "message" (Value.vnat 5)
    [("message", [⟨1, SigBeh.live⟩, ⟨2, SigBeh.deletedObj⟩, ⟨3, SigBeh.live⟩]),
     ("call_api", [⟨2, SigBeh.deletedObj⟩])] (by decide) (by decide)
  refine ⟨by simpa using h.1, by simpa using h.2.2.1, ?_, ?_, ?_⟩
  · have := h.2.2.2.1 "call_api" (by decide)
    simpa using this
  · exact h.2.2.2.2.1 [⟨1, false, true⟩, ⟨2, false, false⟩]
  · exact h.2.2.2.2.2.2 [⟨1, false, true⟩, ⟨2, false, false⟩] ⟨2, false, false⟩
      (by decide) rfl rfl

/-- Counterexample to claim C8 as stated, at both cited fan-outs.
Thread-based client: a consumer whose delivery raises a `RuntimeError`
not marked as deleted (text `boom`) aborts the fan-out — the following
live consumer 2 receives nothing, the error is re-raised, and nobody is
evicted.  Server `_real_broadcast`: the send to connection 1 fails, yet
connection 1 is not evicted at this dispatch — the active set after the
call still contains it (delivery to connection 2 does go through). -/
theorem c8_abort_counterexample :
    (sort_data_broadcast "message" (Value.vstr "hello") abortDict).1 = []
    ∧ (sort_data_broadcast "message" (Value.vstr "hello") abortDict).2.2 = some "boom"
    ∧ (2, Value.vstr "hello") ∉ (sort_data_broadcast "message" (Value.vstr "hello") abortDict).1
    ∧ (sort_data_broadcast "message" (Value.vstr "hello") abortDict).2.1 = abortDict
    ∧ (real_broadcast_run [⟨1, false, true⟩, ⟨2, false, false⟩]).1
      = [(1, SendRes.failed), (2, SendRes.delivered)]
    ∧ (⟨1, false, true⟩ : Conn) ∈ (real_broadcast_run [⟨1, false, true⟩, ⟨2, false, false⟩]).2 := by
  decide

/-! ### Substring and correlation-table lemmas (claims C6, C5, C1) -/

theorem prefChr_length : ∀ needle hay : List Char, prefChr needle hay = true →
    needle.length ≤ hay.length := by
  intro needle
  induction needle with
  | nil => intro hay _; simp
  | cons a as ih =>
    intro hay h
    match hay with
    | [] => exact absurd h (by simp [prefChr])
    | b :: bs =>
      simp only [prefChr, Bool.and_eq_true] at h
      simpa using Nat.succ_le_succ (ih bs h.2)

theorem subChr_length : ∀ hay needle : List Char, subChr needle hay = true →
    needle.length ≤ hay.length := by
  intro hay
  induction hay with
  | nil =>
    intro needle h
    match needle with
    | [] => simp
    | a :: as => exact absurd h (by simp [subChr, prefChr])
  | cons c cs ih =>
    intro needle h
    simp only [subChr, Bool.or_eq_true] at h
    rcases h with h | h
    · exact prefChr_length needle (c :: cs) h
    · exact Nat.le_trans (ih needle h) (by simp)

theorem prefChr_self : ∀ l : List Char, prefChr l l = true := by
  intro l
  induction l with
  | nil => rfl
  | cons a as ih => simp [prefChr, ih]

theorem subChr_suffix : ∀ (pre l : List Char), subChr l (pre ++ l) = true := by
  intro pre
  induction pre with
  | nil =>
    intro l
    match l with
    | [] => rfl
    | a :: as => simp [subChr, prefChr_self]
  | cons c cs ih =>
    intro l
    simp [subChr, ih l]

theorem mentions_of_long (msg id : String) (h : msg.toList.length < id.toList.length) :
    ¬ mentions msg id := by
  intro hm
  exact absurd (subChr_length msg.toList id.toList hm) (Nat.not_le.mpr h)

theorem mentions_timeoutMsg (id : String) : mentions (timeoutMsg id) id := by
  show subChr id.toList (timeoutMsg id).toList = true
  have hsplit : (timeoutMsg id).toList = "Request timeout for ".toList ++ id.toList := by
    simp [timeoutMsg, String.toList, String.data_append]
  rw [hsplit]
  exact subChr_suffix "Request timeout for ".toList id.toList

theorem lookupId_removeId (id : String) : ∀ l, lookupId id (removeId id l) = none := by
  intro l
  induction l with
  | nil => rfl
  | cons p t ih =>
    by_cases hp : p.1 = id
    · simpa [removeId, List.filter, hp] using ih
    · simpa [removeId, List.filter, hp, lookupId] using ih

theorem alookup_aremove (id : String) : ∀ l, alookup id (aremove id l) = none := by
  intro l
  induction l with
  | nil => rfl
  | cons p t ih =>
    by_cases hp : p.1 = id
    · simpa [aremove, List.filter, hp] using ih
    · simpa [aremove, List.filter, hp, alookup] using ih

theorem handle_timeout_consumes (id : String) (s : HState) (e : Entry)
    (hl : lookupId id s.pending = some e) (he : e.hasError = true) :
    handle_timeout id s =
      { pending := removeId id s.pending,
        outcomes := s.outcomes ++ [Outcome.timeoutErr id (timeoutMsg id)],
        timerOps := s.timerOps ++ [TimerOp.tdelete id],
        clientStopped := s.clientStopped } := by
  simp [handle_timeout, hl, he]

theorem handle_timeout_noop (id : String) (s : HState)
    (hl : lookupId id s.pending = none) : handle_timeout id s = s := by
  simp [handle_timeout, hl]

theorem a_handle_timeout_consumes (id : String) (st : AsyncSystem)
    (hl : alookup id st.pending = some false) :
    a_handle_timeout id st =
      { client := st.client,
        pending := aremove id st.pending,
        resolutions := st.resolutions ++ [(id, AsyncRes.timeoutExc asyncTimeoutFutureMsg)] } := by
  simp [a_handle_timeout, hl]

theorem a_handle_timeout_noop (id : String) (st : AsyncSystem)
    (hl : alookup id st.pending = none) : a_handle_timeout id st = st := by
  simp [a_handle_timeout, hl]

/-- Claim C6 (amended).  Thread-based client: a timer fire for a pending
request with an error signal delivers exactly one timeout failure whose
message mentions the request id, removes the pending entry exactly once
(a second fire is a no-op), and leaves the connection state untouched;
the timer was armed with exactly the requested duration by
`send_request`.  Async client: the timeout path pops the entry exactly
once, leaves the connection untouched, and fails the future with
`TimeoutError("Request timeout")` while the caller sees the re-raised
bare `asyncio.TimeoutError` — neither text mentions the request id (ids
are 36-character uuids, longer than both messages), so the id reaches
only the log. -/
theorem c6_timeout_behaviour :
    (∀ (s : HState) (id : String) (e : Entry),
      lookupId id s.pending = some e → e.hasError = true →
      (handle_timeout id s).outcomes = s.outcomes ++ [Outcome.timeoutErr id (timeoutMsg id)]
      ∧ mentions (timeoutMsg id) id
      ∧ lookupId id (handle_timeout id s).pending = none
      ∧ handle_timeout id (handle_timeout id s) = handle_timeout id s
      ∧ (handle_timeout id s).clientStopped = s.clientStopped)
    ∧ (∀ (s : HState) (id : String) (e : Entry) (ms : Nat) (ok : Bool),
        TimerOp.tstart id ms ∈ (send_request id e ms ok s).timerOps)
    ∧ (∀ (st : AsyncSystem) (id : String), alookup id st.pending = some false →
        (a_handle_timeout id st).resolutions
          = st.resolutions ++ [(id, AsyncRes.timeoutExc asyncTimeoutFutureMsg)]
        ∧ alookup id (a_handle_timeout id st).pending = none
        ∧ a_handle_timeout id (a_handle_timeout id st) = a_handle_timeout id st
        ∧ (a_handle_timeout id st).client = st.client)
    ∧ (∀ id : String, 16 ≤ id.toList.length →
        ¬ mentions asyncTimeoutFutureMsg id ∧ ¬ mentions asyncTimeoutCallerMsg id) := by
  refine ⟨?_, ?_, ?_, ?_⟩
  · intro s id e hl he
    rw [handle_timeout_consumes id s e hl he]
    refine ⟨rfl, mentions_timeoutMsg id, lookupId_removeId id s.pending, ?_, rfl⟩
    exact handle_timeout_noop id _ (lookupId_removeId id s.pending)
  · intro s id e ms ok
    by_cases hok : ok = true
    · subst hok
      simp [send_request]
    · have hok2 : ok = false := by
        cases ok
        · rfl
        · exact absurd rfl hok
      subst hok2
      by_cases he : e.hasError = true
      · simp [send_request, he]
      · simp [send_request, he]
  · intro st id hl
    rw [a_handle_timeout_consumes id st hl]
    refine ⟨rfl, alookup_aremove id st.pending, ?_, rfl⟩
    exact a_handle_timeout_noop id _ (alookup_aremove id st.pending)
  · intro id hlen
    constructor
    · apply mentions_of_long
      have h15 : asyncTimeoutFutureMsg.toList.length = 15 := rfl
      omega
    · apply mentions_of_long
      have h0 : asyncTimeoutCallerMsg.toList.length = 0 := rfl
      omega

/-- Witness for claim C6 at a concrete pending request. -/
theorem c6_timeout_behaviour_witness :
    (handle_timeout sampleUuid oneEntryState).outcomes
      = [Outcome.timeoutErr sampleUuid (timeoutMsg sampleUuid)]
    ∧ TimerOp.tstart "id-1" 1000
        ∈ (send_request "id-1" ⟨true, true⟩ 1000 true oneEntryState).timerOps
    ∧ (a_handle_timeout sampleUuid oneAsyncState).client = oneAsyncState.client
    ∧ ¬ mentions asyncTimeoutFutureMsg sampleUuid := by
  refine ⟨?_, c6_timeout_behaviour.2.1 oneEntryState "id-1" ⟨true, true⟩ 1000 true, ?_, ?_⟩
  · have h := (c6_timeout_behaviour.1 oneEntryState sampleUuid ⟨true, true⟩ (by decide) rfl).1
    simpa using h
  · exact (c6_timeout_behaviour.2.2.1 oneAsyncState sampleUuid (by decide)).2.2.2
  · exact (c6_timeout_behaviour.2.2.2 sampleUuid (by decide)).1

/-- Counterexample to claim C6 as stated: on the async client the
timed-out future of a pending request with a 36-character uuid id is
failed with the fixed text `Request timeout`, and the caller sees the
re-raised bare `asyncio.TimeoutError` with empty text — neither failure
references the request id (while the thread-based message does). -/
theorem c6_async_timeout_counterexample :
    (a_handle_timeout sampleUuid oneAsyncState).resolutions
      = [(sampleUuid, AsyncRes.timeoutExc asyncTimeoutFutureMsg)]
    ∧ ¬ mentions asyncTimeoutFutureMsg sampleUuid
    ∧ ¬ mentions asyncTimeoutCallerMsg sampleUuid
    ∧ mentions (timeoutMsg sampleUuid) sampleUuid := by
  decide

theorem stopLoop_spec : ∀ (l : List (String × Entry)) (s : HState),
    stopLoop l s =
      { pending := s.pending,
        outcomes := s.outcomes ++ l.filterMap (fun p =>
          if p.2.hasError then some (Outcome.shutdownErr p.1 shutdownMsg) else none),
        timerOps := s.timerOps ++ l.flatMap (fun p =>
          [TimerOp.tstop p.1, TimerOp.tdelete p.1]),
        clientStopped := s.clientStopped } := by
  intro l
  induction l with
  | nil => intro s; simp [stopLoop]
  | cons p rest ih =>
    intro s
    obtain ⟨id, e⟩ := p
    by_cases he : e.hasError = true
    · simp [stopLoop, he, ih, List.filterMap_cons, List.flatMap_cons, List.append_assoc]
    · simp [stopLoop, he, ih, List.filterMap_cons, List.flatMap_cons, List.append_assoc]

/-- Claim C5 (amended).  Thread-based client: `stop` fails, at the stop
call itself, every pending entry that registered an error signal with
the shutdown message, stops and deletes the timer of every pending
entry, empties the pending table, and leaves no entry for a later timer
fire to hit — a timeout fired after `stop` is a no-op.  Async client:
connection teardown (`_cleanup`) does not touch the pending table or
resolve any future; outstanding requests are not failed with a
shutdown error there. -/
theorem c5_shutdown_behaviour :
    (∀ s : HState,
      (mh_stop s).pending = []
      ∧ (mh_stop s).outcomes = s.outcomes ++ s.pending.filterMap (fun p =>
          if p.2.hasError then some (Outcome.shutdownErr p.1 shutdownMsg) else none)
      ∧ (mh_stop s).timerOps = s.timerOps ++ s.pending.flatMap (fun p =>
          [TimerOp.tstop p.1, TimerOp.tdelete p.1])
      ∧ (mh_stop s).clientStopped = true
      ∧ ∀ id, handle_timeout id (mh_stop s) = mh_stop s)
    ∧ (∀ st : AsyncSystem,
        (ac_cleanup st).pending = st.pending
        ∧ (ac_cleanup st).resolutions = st.resolutions) := by
  constructor
  · intro s
    have hs : mh_stop s =
        { pending := [],
          outcomes := s.outcomes ++ s.pending.filterMap (fun p =>
            if p.2.hasError then some (Outcome.shutdownErr p.1 shutdownMsg) else none),
          timerOps := s.timerOps ++ s.pending.flatMap (fun p =>
            [TimerOp.tstop p.1, TimerOp.tdelete p.1]),
          clientStopped := true } := by
      show ({ stopLoop s.pending { s with clientStopped := true } with pending := [] } : HState) = _
      rw [stopLoop_spec s.pending { s with clientStopped := true }]
    rw [hs]
    exact ⟨rfl, rfl, rfl, rfl, fun id => handle_timeout_noop id _ rfl⟩
  · intro st
    exact ⟨rfl, rfl⟩

/-- Witness for claim C5 at a concrete state with three pending entries,
all with error signals. -/
theorem c5_shutdown_behaviour_witness :
    (mh_stop { pending := [("a", ⟨true, true⟩), ("b", ⟨false, true⟩), ("c", ⟨true, true⟩)],
               outcomes := [], timerOps := [], clientStopped := false }).pending = []
    ∧ (mh_stop { pending := [("a", ⟨true, true⟩), ("b", ⟨false, true⟩), ("c", ⟨true, true⟩)],
                 outcomes := [], timerOps := [], clientStopped := false }).outcomes
      = [Outcome.shutdownErr "a" shutdownMsg, Outcome.shutdownErr "b" shutdownMsg,
         Outcome.shutdownErr "c" shutdownMsg]
    ∧ (ac_cleanup asyncMidSession).pending = asyncMidSession.pending := by
  have h := c5_shutdown_behaviour.1
    { pending := [("a", ⟨true, true⟩), ("b", ⟨false, true⟩), ("c", ⟨true, true⟩)],
      outcomes := [], timerOps := [], clientStopped := false }
  refine ⟨h.1, ?_, (c5_shutdown_behaviour.2 asyncMidSession).1⟩
  rw [h.2.1]
  rfl

/-- Counterexample to claim C5 as stated: on the async client, a
connection shutdown with three requests outstanding leaves all three
entries in the pending table, resolves nothing and delivers no
shutdown-kind failure — the pending table is not empty afterwards. -/
theorem c5_async_shutdown_counterexample :
    (ac_cleanup asyncMidSession).pending
      = [("req-1", false), ("req-2", false), ("req-3", false)]
    ∧ (ac_cleanup asyncMidSession).resolutions = []
    ∧ (ac_cleanup asyncMidSession).pending ≠ [] := by
  decide

theorem mh_stop_spec (s : HState) :
    mh_stop s =
      { pending := [],
        outcomes := s.outcomes ++ s.pending.filterMap (fun p =>
          if p.2.hasError then some (Outcome.shutdownErr p.1 shutdownMsg) else none),
        timerOps := s.timerOps ++ s.pending.flatMap (fun p =>
          [TimerOp.tstop p.1, TimerOp.tdelete p.1]),
        clientStopped := true } := by
  show ({ stopLoop s.pending { s with clientStopped := true } with pending := [] } : HState) = _
  rw [stopLoop_spec s.pending { s with clientStopped := true }]

theorem handle_response_noop (id : String) (b : Bool) (s : HState)
    (hl : lookupId id s.pending = none) : handle_response id b s = s := by
  simp [handle_response, hl]

theorem handle_response_consumes (id : String) (b : Bool) (s : HState) (e : Entry)
    (hl : lookupId id s.pending = some e) (hs : e.hasSuccess = true) (he : e.hasError = true) :
    handle_response id b s =
      { pending := removeId id s.pending,
        outcomes := s.outcomes ++ [if b then Outcome.respErr id else Outcome.respOk id],
        timerOps := s.timerOps ++ [TimerOp.tstop id, TimerOp.tdelete id],
        clientStopped := s.clientStopped } := by
  cases b with
  | true => simp [handle_response, hl, he]
  | false => simp [handle_response, hl, hs]

theorem lookupId_none_keys (id : String) :
    ∀ l : List (String × Entry), lookupId id l = none → ∀ p ∈ l, p.1 ≠ id := by
  intro l
  induction l with
  | nil => intro _ p hp; exact absurd hp (List.not_mem_nil p)
  | cons q t ih =>
    intro h p hp
    obtain ⟨k, v⟩ := q
    by_cases hk : k = id
    · rw [show lookupId id ((k, v) :: t) = some v from by simp [lookupId, hk]] at h
      exact absurd h (by simp)
    · have ht : lookupId id t = none := by
        rw [show lookupId id ((k, v) :: t) = lookupId id t from by simp [lookupId, hk]] at h
        exact h
      rcases List.mem_cons.mp hp with hq | hq
      · rw [hq]; exact hk
      · exact ih ht p hq

theorem shutdown_filter_not_mem (id : String) :
    ∀ l : List (String × Entry), (∀ p ∈ l, p.1 ≠ id) →
      (l.filterMap (fun p =>
          if p.2.hasError then some (Outcome.shutdownErr p.1 shutdownMsg) else none)).filter
        (fun o => o.oid = id) = [] := by
  intro l
  induction l with
  | nil => intro _; rfl
  | cons q t ih =>
    intro h
    obtain ⟨k, v⟩ := q
    have hk : k ≠ id := h (k, v) (List.mem_cons_self (k, v) t)
    have ht : ∀ p ∈ t, p.1 ≠ id := fun p hp => h p (List.mem_cons_of_mem (k, v) hp)
    by_cases hv : v.hasError = true
    · rw [List.filterMap_cons, if_pos hv,
        List.filter_cons_of_neg (by simp [Outcome.oid, hk])]
      exact ih ht
    · rw [List.filterMap_cons, if_neg hv]
      exact ih ht

theorem shutdown_filter_lookup (id : String) :
    ∀ (l : List (String × Entry)) (e : Entry), (l.map Prod.fst).Nodup →
      lookupId id l = some e → e.hasError = true →
      (l.filterMap (fun p =>
          if p.2.hasError then some (Outcome.shutdownErr p.1 shutdownMsg) else none)).filter
        (fun o => o.oid = id) = [Outcome.shutdownErr id shutdownMsg] := by
  intro l
  induction l with
  | nil => intro e _ hl _; exact absurd hl (by simp [lookupId])
  | cons q t ih =>
    intro e hnd hl he
    obtain ⟨k, v⟩ := q
    by_cases hk : k = id
    · subst hk
      have hv : v = e := by
        rw [show lookupId k ((k, v) :: t) = some v from by simp [lookupId]] at hl
        exact Option.some_injective _ hl
      subst hv
      rw [List.map_cons] at hnd
      have hknot : k ∉ t.map Prod.fst := (List.nodup_cons.mp hnd).1
      have htkeys : ∀ p ∈ t, p.1 ≠ k := by
        intro p hp hpk
        exact hknot (hpk ▸ List.mem_map_of_mem Prod.fst hp)
      rw [List.filterMap_cons, if_pos he,
        List.filter_cons_of_pos (by simp [Outcome.oid]),
        shutdown_filter_not_mem k t htkeys]
    · have hlt : lookupId id t = some e := by
        rw [show lookupId id ((k, v) :: t) = lookupId id t from by simp [lookupId, hk]] at hl
        exact hl
      rw [List.map_cons] at hnd
      have hndt : (t.map Prod.fst).Nodup := (List.nodup_cons.mp hnd).2
      by_cases hv : v.hasError = true
      · rw [List.filterMap_cons, if_pos hv,
          List.filter_cons_of_neg (by simp [Outcome.oid, hk])]
        exact ih e hndt hlt he
      · rw [List.filterMap_cons, if_neg hv]
        exact ih e hndt hlt he

theorem stepEv_noop_for (id : String) (s : HState) (hl : lookupId id s.pending = none)
    (ev : Ev) :
    deliveredFor id (stepEv id s ev) = deliveredFor id s
    ∧ lookupId id (stepEv id s ev).pending = none := by
  cases ev with
  | resp b =>
    rw [show stepEv id s (Ev.resp b) = handle_response id b s from rfl,
      handle_response_noop id b s hl]
    exact ⟨rfl, hl⟩
  | timeout =>
    rw [show stepEv id s Ev.timeout = handle_timeout id s from rfl,
      handle_timeout_noop id s hl]
    exact ⟨rfl, hl⟩
  | shutdown =>
    rw [show stepEv id s Ev.shutdown = mh_stop s from rfl, mh_stop_spec s]
    constructor
    · simp only [deliveredFor]
      rw [List.filter_append,
        shutdown_filter_not_mem id s.pending (lookupId_none_keys id s.pending hl),
        List.append_nil]
    · rfl

theorem runEv_noop_for (id : String) :
    ∀ (evs : List Ev) (s : HState), lookupId id s.pending = none →
      deliveredFor id (runEv id s evs) = deliveredFor id s
      ∧ lookupId id (runEv id s evs).pending = none := by
  intro evs
  induction evs with
  | nil => intro s hl; exact ⟨rfl, hl⟩
  | cons ev rest ih =>
    intro s hl
    have h1 := stepEv_noop_for id s hl ev
    have h2 := ih (stepEv id s ev) h1.2
    exact ⟨h2.1.trans h1.1, h2.2⟩

theorem stepEv_first (id : String) (s : HState) (e : Entry)
    (hnd : (s.pending.map Prod.fst).Nodup)
    (hl : lookupId id s.pending = some e) (hs : e.hasSuccess = true) (he : e.hasError = true)
    (ev : Ev) :
    deliveredFor id (stepEv id s ev) = deliveredFor id s ++ [evOutcome id ev]
    ∧ lookupId id (stepEv id s ev).pending = none := by
  cases ev with
  | resp b =>
    rw [show stepEv id s (Ev.resp b) = handle_response id b s from rfl,
      handle_response_consumes id b s e hl hs he]
    constructor
    · simp only [deliveredFor]
      rw [List.filter_append]
      cases b with
      | true => simp [evOutcome, Outcome.oid]
      | false => simp [evOutcome, Outcome.oid]
    · exact lookupId_removeId id s.pending
  | timeout =>
    rw [show stepEv id s Ev.timeout = handle_timeout id s from rfl,
      handle_timeout_consumes id s e hl he]
    constructor
    · simp only [deliveredFor]
      rw [List.filter_append]
      simp [evOutcome, Outcome.oid]
    · exact lookupId_removeId id s.pending
  | shutdown =>
    rw [show stepEv id s Ev.shutdown = mh_stop s from rfl, mh_stop_spec s]
    constructor
    · simp only [deliveredFor]
      rw [List.filter_append, shutdown_filter_lookup id s.pending e hnd hl he]
      simp [evOutcome]
    · rfl

theorem a_resp_noop (id : String) (v : Bool) (st : AsyncSystem)
    (hl : alookup id st.pending = none) : a_sort_data_response id v st = st := by
  simp [a_sort_data_response, hl]

theorem a_resp_consumes (id : String) (v : Bool) (st : AsyncSystem)
    (hl : alookup id st.pending = some false) :
    a_sort_data_response id v st =
      { client := st.client, pending := aremove id st.pending,
        resolutions := st.resolutions
          ++ [(id, if v then AsyncRes.respResult else AsyncRes.respInvalid)] } := by
  simp [a_sort_data_response, hl]

theorem aStep_noop_for (id : String) (st : AsyncSystem) (hl : alookup id st.pending = none)
    (ev : AEv) :
    aResolvedFor id (aStep id st ev) = aResolvedFor id st
    ∧ alookup id (aStep id st ev).pending = none := by
  cases ev with
  | resp v =>
    rw [show aStep id st (AEv.resp v) = a_sort_data_response id v st from rfl,
      a_resp_noop id v st hl]
    exact ⟨rfl, hl⟩
  | timeout =>
    rw [show aStep id st AEv.timeout = a_handle_timeout id st from rfl,
      a_handle_timeout_noop id st hl]
    exact ⟨rfl, hl⟩
  | cleanup => exact ⟨rfl, hl⟩

theorem aRun_noop_for (id : String) :
    ∀ (evs : List AEv) (st : AsyncSystem), alookup id st.pending = none →
      aResolvedFor id (aRun id st evs) = aResolvedFor id st
      ∧ alookup id (aRun id st evs).pending = none := by
  intro evs
  induction evs with
  | nil => intro st hl; exact ⟨rfl, hl⟩
  | cons ev rest ih =>
    intro st hl
    have h1 := aStep_noop_for id st hl ev
    have h2 := ih (aStep id st ev) h1.2
    exact ⟨h2.1.trans h1.1, h2.2⟩

theorem aRun_first (id : String) (st : AsyncSystem) (hl : alookup id st.pending = some false) :
    ∀ (w : AEv) (rest : List AEv), w ≠ AEv.cleanup →
      aResolvedFor id (aRun id st (w :: rest)) = aResolvedFor id st ++ [aevOutcome id w]
      ∧ alookup id (aRun id st (w :: rest)).pending = none := by
  intro w rest hw
  cases w with
  | resp v =>
    have h1 := a_resp_consumes id v st hl
    have hstep : aStep id st (AEv.resp v) = a_sort_data_response id v st := rfl
    have hres : aResolvedFor id (aStep id st (AEv.resp v))
        = aResolvedFor id st ++ [aevOutcome id (AEv.resp v)] := by
      rw [hstep, h1]
      simp only [aResolvedFor]
      rw [List.filter_append]
      cases v with
      | true => simp [aevOutcome]
      | false => simp [aevOutcome]
    have hpend : alookup id (aStep id st (AEv.resp v)).pending = none := by
      rw [hstep, h1]
      exact alookup_aremove id st.pending
    have h2 := aRun_noop_for id rest (aStep id st (AEv.resp v)) hpend
    exact ⟨h2.1.trans hres, h2.2⟩
  | timeout =>
    have h1 := a_handle_timeout_consumes id st hl
    have hstep : aStep id st AEv.timeout = a_handle_timeout id st := rfl
    have hres : aResolvedFor id (aStep id st AEv.timeout)
        = aResolvedFor id st ++ [aevOutcome id AEv.timeout] := by
      rw [hstep, h1]
      simp only [aResolvedFor]
      rw [List.filter_append]
      simp [aevOutcome]
    have hpend : alookup id (aStep id st AEv.timeout).pending = none := by
      rw [hstep, h1]
      exact alookup_aremove id st.pending
    have h2 := aRun_noop_for id rest (aStep id st AEv.timeout) hpend
    exact ⟨h2.1.trans hres, h2.2⟩
  | cleanup => exact absurd rfl hw

/-- Claim C1.  Thread-based client: for a pending entry registered with
both caller signals, in every nonempty sequence of the three paths that
can hit its id — a matching response (with an error or non-error
payload), its timer firing, and handler shutdown — exactly one outcome
is delivered to the caller, namely the outcome of the first event; the
entry is consumed by that first event and the remaining events deliver
nothing further for that id (they are no-ops on it).  Async client: in
each of the six interleavings of one matching response, one timeout fire
and one connection shutdown for a pending not-yet-done future, exactly
one resolution is recorded — that of the first response-or-timeout event
(connection shutdown resolves nothing there) — and the entry is gone
afterwards. -/
theorem c1_at_most_one_resolution :
    (∀ (s : HState) (id : String) (e : Entry),
      (s.pending.map Prod.fst).Nodup →
      lookupId id s.pending = some e → e.hasSuccess = true → e.hasError = true →
      ∀ (ev : Ev) (rest : List Ev),
        deliveredFor id (runEv id s (ev :: rest))
          = deliveredFor id s ++ [evOutcome id ev]
        ∧ lookupId id (runEv id s (ev :: rest)).pending = none)
    ∧ (∀ (st : AsyncSystem) (id : String) (b : Bool),
        alookup id st.pending = some false →
        ∀ evs ∈ asyncInterleavings b,
          aResolvedFor id (aRun id st evs)
            = aResolvedFor id st
              ++ [aevOutcome id ((evs.filter (fun x => x ≠ AEv.cleanup)).headI)]
          ∧ alookup id (aRun id st evs).pending = none) := by
  constructor
  · intro s id e hnd hl hs he ev rest
    have h1 := stepEv_first id s e hnd hl hs he ev
    have h2 := runEv_noop_for id rest (stepEv id s ev) h1.2
    exact ⟨h2.1.trans h1.1, h2.2⟩
  · intro st id b hl evs hevs
    have hresp : (AEv.resp b : AEv) ≠ AEv.cleanup := fun h => nomatch h
    have htime : (AEv.timeout : AEv) ≠ AEv.cleanup := fun h => nomatch h
    have hclpend : alookup id (ac_cleanup st).pending = some false := hl
    fin_cases hevs
    · have h := aRun_first id st hl (AEv.resp b) [AEv.timeout, AEv.cleanup] hresp
      simpa [hresp] using h
    · have h := aRun_first id st hl (AEv.resp b) [AEv.cleanup, AEv.timeout] hresp
      simpa [hresp] using h
    · have h := aRun_first id st hl AEv.timeout [AEv.resp b, AEv.cleanup] htime
      simpa [hresp] using h
    · have h := aRun_first id st hl AEv.timeout [AEv.cleanup, AEv.resp b] htime
      simpa [hresp] using h
    · have h := aRun_first id (ac_cleanup st) hclpend (AEv.resp b) [AEv.timeout] hresp
      simpa [hresp] using h
    · have h := aRun_first id (ac_cleanup st) hclpend AEv.timeout [AEv.resp b] htime
      simpa [hresp] using h

/-- Witness for claim C1 at a concrete pending request, one thread-side
interleaving (timeout first) and one async interleaving (shutdown
first). -/
theorem c1_at_most_one_resolution_witness :
    deliveredFor sampleUuid
        (runEv sampleUuid oneEntryState [Ev.timeout, Ev.resp true, Ev.shutdown])
      = [Outcome.timeoutErr sampleUuid (timeoutMsg sampleUuid)]
    ∧ aResolvedFor sampleUuid
        (aRun sampleUuid oneAsyncState [AEv.cleanup, AEv.resp true, AEv.timeout])
      = [(sampleUuid, AsyncRes.respResult)] := by
  constructor
  · have h := (c1_at_most_one_resolution.1 oneEntryState sampleUuid ⟨true, true⟩
      (by decide) (by decide) rfl rfl Ev.timeout [Ev.resp true, Ev.shutdown]).1
    simpa [oneEntryState, deliveredFor, evOutcome] using h
  · have h := (c1_at_most_one_resolution.2 oneAsyncState sampleUuid true (by decide)
      [AEv.cleanup, AEv.resp true, AEv.timeout] (by decide)).1
    simpa [oneAsyncState, aResolvedFor, aevOutcome] using h
